import Mathlib

/-!
Shallow embedding of the pattern-geometry and sheet-imposition code of
`generate.py` (namespace `Generate`) and `generate_patterns.py`
(namespace `Patterns`).

Conventions of the embedding:
* Python float arithmetic is embedded as exact rational arithmetic over `ℚ`.
* reportlab's unit constant `mm = 72 / 25.4` is the exact rational `mmQ`.
* The two irrational constants used by the source,
  `math.tan(math.radians(30))` (isometric grid) and `math.sqrt(3)`
  (hexagonal grid), are carried as an explicit parameter `r3` standing for
  `sqrt 3`; the code's `tan(30°)` equals `sqrt 3 / 3` and is embedded as
  `tan30 r3 = r3 / 3`.  Theorems quantify over `r3` with the bounds
  (`0 < r3`, `r3 ≤ 2`) satisfied by the real `sqrt 3`.
* Every reportlab canvas call that produces visible geometry
  (`c.line`, `c.circle`, `c.drawPath` of a hexagon, `c.drawString` of a
  page number) is recorded as a `DrawOp`, in source order.  Pure
  graphics-state calls (`setStrokeColor`, `setLineWidth`, `setDash`,
  `setFont`, `setFillColor`) carry no geometry and are not recorded.
* Python `while` loops are embedded by the fuel-indexed structural
  recursions `loopDown`, `loopUpLE`, `loopUpLT`; the supplied fuel
  (`downFuel`, `upFuelLE`, `upFuelLT`) is exactly the number of iterations
  the loop performs when the step is positive, so the embedded loop stops
  on the loop's own condition, never by running out of fuel
  (`loopDown_eq` and friends make this precise).
-/

/-- reportlab's millimetre unit: `mm = 72 / 25.4` points, embedded exactly
as `360 / 127`. -/
def mmQ : ℚ := 360 / 127

theorem mmQ_pos : 0 < mmQ := by norm_num [mmQ]

/-- A recorded drawing operation: the output alphabet of the geometry
generators and of the sheet imposer.  `text` records the page-number label
(`c.drawString`) with the page number it prints. -/
inductive DrawOp
  | line (x1 y1 x2 y2 : ℚ)
  | circle (cx cy r : ℚ) (filled : Bool)
  | polygon (pts : List (ℚ × ℚ))
  | text (x y : ℚ) (num : ℤ)
deriving DecidableEq

/-- `op` is a page-number label. -/
def DrawOp.isText : DrawOp → Bool
  | .text _ _ _ => true
  | _ => false

/-- Every coordinate mentioned by `op` lies in `[x, x+w] × [y, y+h]`.
For a circle the recorded coordinates are its centre; for a polygon, all
of its vertices.  Text ops carry no geometric claim here (the containment
claim is about Line/Circle/Polygon ops only). -/
def opInRect (x y w h : ℚ) : DrawOp → Prop
  | .line x1 y1 x2 y2 =>
      (x ≤ x1 ∧ x1 ≤ x + w) ∧ (x ≤ x2 ∧ x2 ≤ x + w) ∧
      (y ≤ y1 ∧ y1 ≤ y + h) ∧ (y ≤ y2 ∧ y2 ≤ y + h)
  | .circle cx cy _ _ =>
      (x ≤ cx ∧ cx ≤ x + w) ∧ (y ≤ cy ∧ cy ≤ y + h)
  | .polygon pts =>
      ∀ p ∈ pts, (x ≤ p.1 ∧ p.1 ≤ x + w) ∧ (y ≤ p.2 ∧ p.2 ≤ y + h)
  | .text _ _ _ => True

/-- Embedding of `while limit < y: emit (g k y); y -= s`.  `k` is the
iteration counter (the source only inspects it in `draw_hexagonal`, as the
row number).  The loop stops when its condition fails; the `fuel` argument
only serves to make the recursion structural. -/
def loopDown (g : ℕ → ℚ → List DrawOp) (limit s : ℚ) : ℕ → ℕ → ℚ → List DrawOp
  | 0, _, _ => []
  | fuel + 1, k, y =>
      if limit < y then g k y ++ loopDown g limit s fuel (k + 1) (y - s) else []

/-- Embedding of `while y <= bound: emit (g k y); y += s`. -/
def loopUpLE (g : ℕ → ℚ → List DrawOp) (bound s : ℚ) : ℕ → ℕ → ℚ → List DrawOp
  | 0, _, _ => []
  | fuel + 1, k, y =>
      if y ≤ bound then g k y ++ loopUpLE g bound s fuel (k + 1) (y + s) else []

/-- Embedding of `while y < bound: emit (g k y); y += s`. -/
def loopUpLT (g : ℕ → ℚ → List DrawOp) (bound s : ℚ) : ℕ → ℕ → ℚ → List DrawOp
  | 0, _, _ => []
  | fuel + 1, k, y =>
      if y < bound then g k y ++ loopUpLT g bound s fuel (k + 1) (y + s) else []

/-- Exact iteration count of `while limit < y: ... ; y -= s` for `0 < s`. -/
def downFuel (y limit s : ℚ) : ℕ := (⌈(y - limit) / s⌉).toNat

/-- Exact iteration count of `while y <= bound: ... ; y += s` for `0 < s`. -/
def upFuelLE (y bound s : ℚ) : ℕ := (⌊(bound - y) / s⌋ + 1).toNat

/-- Exact iteration count of `while y < bound: ... ; y += s` for `0 < s`. -/
def upFuelLT (y bound s : ℚ) : ℕ := (⌈(bound - y) / s⌉).toNat

theorem downFuel_eq_zero {y limit s : ℚ} (hs : 0 < s) (h : y ≤ limit) :
    downFuel y limit s = 0 := by
  have h1 : (y - limit) / s ≤ 0 :=
    div_nonpos_of_nonpos_of_nonneg (sub_nonpos.mpr h) hs.le
  have h2 : ⌈(y - limit) / s⌉ ≤ 0 := Int.ceil_le.mpr (by exact_mod_cast h1)
  simp [downFuel, Int.toNat_of_nonpos h2]

theorem downFuel_eq_succ {y limit s : ℚ} (hs : 0 < s) (h : limit < y) :
    downFuel y limit s = downFuel (y - s) limit s + 1 := by
  have hd : (y - s - limit) / s = (y - limit) / s - 1 := by
    field_simp
    ring
  have h1 : 0 < ⌈(y - limit) / s⌉ :=
    Int.ceil_pos.mpr (div_pos (sub_pos.mpr h) hs)
  unfold downFuel
  rw [hd, Int.ceil_sub_one]
  omega

theorem upFuelLE_eq_zero {y bound s : ℚ} (hs : 0 < s) (h : ¬ y ≤ bound) :
    upFuelLE y bound s = 0 := by
  have h1 : (bound - y) / s < 0 :=
    div_neg_of_neg_of_pos (sub_neg.mpr (lt_of_not_le h)) hs
  have h2 : ⌊(bound - y) / s⌋ < 0 := Int.floor_lt.mpr (by exact_mod_cast h1)
  have h3 : ⌊(bound - y) / s⌋ + 1 ≤ 0 := by omega
  simp [upFuelLE, Int.toNat_of_nonpos h3]

theorem upFuelLE_eq_succ {y bound s : ℚ} (hs : 0 < s) (h : y ≤ bound) :
    upFuelLE y bound s = upFuelLE (y + s) bound s + 1 := by
  have hd : (bound - (y + s)) / s = (bound - y) / s - 1 := by
    field_simp
    ring
  have h1 : 0 ≤ ⌊(bound - y) / s⌋ :=
    Int.le_floor.mpr (by exact_mod_cast div_nonneg (sub_nonneg.mpr h) hs.le)
  unfold upFuelLE
  rw [hd, Int.floor_sub_one]
  omega

theorem upFuelLT_eq_zero {y bound s : ℚ} (hs : 0 < s) (h : ¬ y < bound) :
    upFuelLT y bound s = 0 := by
  have h1 : (bound - y) / s ≤ 0 :=
    div_nonpos_of_nonpos_of_nonneg (sub_nonpos.mpr (le_of_not_lt h)) hs.le
  have h2 : ⌈(bound - y) / s⌉ ≤ 0 := Int.ceil_le.mpr (by exact_mod_cast h1)
  simp [upFuelLT, Int.toNat_of_nonpos h2]

theorem upFuelLT_eq_succ {y bound s : ℚ} (hs : 0 < s) (h : y < bound) :
    upFuelLT y bound s = upFuelLT (y + s) bound s + 1 := by
  have hd : (bound - (y + s)) / s = (bound - y) / s - 1 := by
    field_simp
    ring
  have h1 : 0 < ⌈(bound - y) / s⌉ :=
    Int.ceil_pos.mpr (div_pos (sub_pos.mpr h) hs)
  unfold upFuelLT
  rw [hd, Int.ceil_sub_one]
  omega

theorem loopDown_forall (P : DrawOp → Prop) {g : ℕ → ℚ → List DrawOp}
    {limit s ytop : ℚ} (hs : 0 ≤ s)
    (hg : ∀ k y, limit < y → y ≤ ytop → ∀ op ∈ g k y, P op) :
    ∀ fuel k y, y ≤ ytop → ∀ op ∈ loopDown g limit s fuel k y, P op := by
  intro fuel
  induction fuel with
  | zero =>
    intro k y _ op hop
    simp [loopDown] at hop
  | succ n ih =>
    intro k y hy op hop
    by_cases hc : limit < y
    · simp only [loopDown, if_pos hc, List.mem_append] at hop
      rcases hop with hop | hop
      · exact hg k y hc hy op hop
      · exact ih (k + 1) (y - s) (le_trans (sub_le_self y hs) hy) op hop
    · simp [loopDown, hc] at hop

theorem loopUpLE_forall (P : DrawOp → Prop) {g : ℕ → ℚ → List DrawOp}
    {bound s ylo : ℚ} (hs : 0 ≤ s)
    (hg : ∀ k y, ylo ≤ y → y ≤ bound → ∀ op ∈ g k y, P op) :
    ∀ fuel k y, ylo ≤ y → ∀ op ∈ loopUpLE g bound s fuel k y, P op := by
  intro fuel
  induction fuel with
  | zero =>
    intro k y _ op hop
    simp [loopUpLE] at hop
  | succ n ih =>
    intro k y hy op hop
    by_cases hc : y ≤ bound
    · simp only [loopUpLE, if_pos hc, List.mem_append] at hop
      rcases hop with hop | hop
      · exact hg k y hy hc op hop
      · exact ih (k + 1) (y + s) (le_trans hy (le_add_of_nonneg_right hs)) op hop
    · simp [loopUpLE, hc] at hop

theorem loopUpLT_forall (P : DrawOp → Prop) {g : ℕ → ℚ → List DrawOp}
    {bound s ylo : ℚ} (hs : 0 ≤ s)
    (hg : ∀ k y, ylo ≤ y → y < bound → ∀ op ∈ g k y, P op) :
    ∀ fuel k y, ylo ≤ y → ∀ op ∈ loopUpLT g bound s fuel k y, P op := by
  intro fuel
  induction fuel with
  | zero =>
    intro k y _ op hop
    simp [loopUpLT] at hop
  | succ n ih =>
    intro k y hy op hop
    by_cases hc : y < bound
    · simp only [loopUpLT, if_pos hc, List.mem_append] at hop
      rcases hop with hop | hop
      · exact hg k y hy hc op hop
      · exact ih (k + 1) (y + s) (le_trans hy (le_add_of_nonneg_right hs)) op hop
    · simp [loopUpLT, hc] at hop

theorem loopDown_eq {g : ℕ → ℚ → List DrawOp} {limit s : ℚ} (hs : 0 < s) :
    ∀ fuel k y, downFuel y limit s ≤ fuel →
      loopDown g limit s fuel k y =
        (List.range (downFuel y limit s)).flatMap
          (fun i => g (k + i) (y - i * s)) := by
  intro fuel
  induction fuel with
  | zero =>
    intro k y hf
    rw [Nat.le_zero.mp hf]
    simp [loopDown]
  | succ n ih =>
    intro k y hf
    by_cases hc : limit < y
    · rw [downFuel_eq_succ hs hc] at hf ⊢
      have hstep := ih (k + 1) (y - s) (by omega)
      simp only [loopDown, if_pos hc]
      rw [hstep, List.range_succ_eq_map]
      have hfun : ∀ i : ℕ,
          g (k + 1 + i) (y - s - i * s) = g (k + (i + 1)) (y - ((i : ℚ) + 1) * s) := by
        intro i
        have h1 : k + 1 + i = k + (i + 1) := by omega
        have h2 : y - s - (i : ℚ) * s = y - ((i : ℚ) + 1) * s := by ring
        rw [h1, h2]
      simp only [List.flatMap_cons, List.flatMap_map]
      congr 1
      · simp
      · apply List.flatMap_congr
        intro i _
        push_cast
        exact hfun i
    · rw [downFuel_eq_zero hs (le_of_not_lt hc)]
      simp [loopDown, hc]

theorem loopUpLE_eq {g : ℕ → ℚ → List DrawOp} {bound s : ℚ} (hs : 0 < s) :
    ∀ fuel k y, upFuelLE y bound s ≤ fuel →
      loopUpLE g bound s fuel k y =
        (List.range (upFuelLE y bound s)).flatMap
          (fun i => g (k + i) (y + i * s)) := by
  intro fuel
  induction fuel with
  | zero =>
    intro k y hf
    rw [Nat.le_zero.mp hf]
    simp [loopUpLE]
  | succ n ih =>
    intro k y hf
    by_cases hc : y ≤ bound
    · rw [upFuelLE_eq_succ hs hc] at hf ⊢
      have hstep := ih (k + 1) (y + s) (by omega)
      simp only [loopUpLE, if_pos hc]
      rw [hstep, List.range_succ_eq_map]
      simp only [List.flatMap_cons, List.flatMap_map]
      congr 1
      · simp
      · apply List.flatMap_congr
        intro i _
        have h1 : k + 1 + i = k + (i + 1) := by omega
        have h2 : y + s + (i : ℚ) * s = y + ((i : ℚ) + 1) * s := by ring
        push_cast
        rw [h1, h2]
    · rw [upFuelLE_eq_zero hs hc]
      simp [loopUpLE, hc]

theorem loopUpLT_eq {g : ℕ → ℚ → List DrawOp} {bound s : ℚ} (hs : 0 < s) :
    ∀ fuel k y, upFuelLT y bound s ≤ fuel →
      loopUpLT g bound s fuel k y =
        (List.range (upFuelLT y bound s)).flatMap
          (fun i => g (k + i) (y + i * s)) := by
  intro fuel
  induction fuel with
  | zero =>
    intro k y hf
    rw [Nat.le_zero.mp hf]
    simp [loopUpLT]
  | succ n ih =>
    intro k y hf
    by_cases hc : y < bound
    · rw [upFuelLT_eq_succ hs hc] at hf ⊢
      have hstep := ih (k + 1) (y + s) (by omega)
      simp only [loopUpLT, if_pos hc]
      rw [hstep, List.range_succ_eq_map]
      simp only [List.flatMap_cons, List.flatMap_map]
      congr 1
      · simp
      · apply List.flatMap_congr
        intro i _
        have h1 : k + 1 + i = k + (i + 1) := by omega
        have h2 : y + s + (i : ℚ) * s = y + ((i : ℚ) + 1) * s := by ring
        push_cast
        rw [h1, h2]
    · rw [upFuelLT_eq_zero hs hc]
      simp [loopUpLT, hc]

/-- The length of a `flatMap` whose body always emits one element. -/
theorem flatMap_length_one {α β : Type} (l : List α) (f : α → List β)
    (hf : ∀ a, (f a).length = 1) : (l.flatMap f).length = l.length := by
  induction l with
  | nil => rfl
  | cons a t ih =>
    simp [hf, ih]
    omega

/-- When every loop body emits exactly one op, the loop emits exactly its
iteration count. -/
theorem loopUpLE_length (g : ℕ → ℚ → List DrawOp) {bound s : ℚ} (hs : 0 < s)
    (hg : ∀ k y, (g k y).length = 1) :
    ∀ fuel k y, upFuelLE y bound s ≤ fuel →
      (loopUpLE g bound s fuel k y).length = upFuelLE y bound s := by
  intro fuel k y hf
  rw [loopUpLE_eq hs fuel k y hf]
  rw [flatMap_length_one _ _ (fun i => hg (k + i) (y + i * s))]
  exact List.length_range _

/-- Same as `loopUpLE_length` for the strict-bound loop. -/
theorem loopUpLT_length (g : ℕ → ℚ → List DrawOp) {bound s : ℚ} (hs : 0 < s)
    (hg : ∀ k y, (g k y).length = 1) :
    ∀ fuel k y, upFuelLT y bound s ≤ fuel →
      (loopUpLT g bound s fuel k y).length = upFuelLT y bound s := by
  intro fuel k y hf
  rw [loopUpLT_eq hs fuel k y hf]
  rw [flatMap_length_one _ _ (fun i => hg (k + i) (y + i * s))]
  exact List.length_range _

/-- reportlab page-size constants (points): `A4 = (210*mm, 297*mm)`, etc.;
`LETTER = (8.5*inch, 11*inch) = (612, 792)`. -/
def A4 : ℚ × ℚ := (210 * mmQ, 297 * mmQ)

def A5 : ℚ × ℚ := (148 * mmQ, 210 * mmQ)

def A6 : ℚ × ℚ := (105 * mmQ, 148 * mmQ)

def B5 : ℚ × ℚ := (176 * mmQ, 250 * mmQ)

def LETTER : ℚ × ℚ := (612, 792)

/-- reportlab's `landscape`: reorder the pair so width ≥ height. -/
def landscape (size : ℚ × ℚ) : ℚ × ℚ :=
  if size.1 < size.2 then (size.2, size.1) else size

/-- reportlab's `portrait`: reorder the pair so width ≤ height. -/
def portrait (size : ℚ × ℚ) : ℚ × ℚ :=
  if size.2 < size.1 then (size.2, size.1) else size

namespace Generate

/-- The configuration record of `generate.py`.  In the source it is a
string-keyed dictionary of strings; numeric fields are converted with
`float(...)` / `int(...)` at each use site, which the embedding performs
once here: `spacing`, the four margins, `line_gray` and `line_weight` hold
the numeric value of the corresponding string, and `pages` /
`pages_per_sheet` its integer value.  The fields the source compares as
strings stay strings. -/
structure Config where
  page_size : String
  orientation : String
  pattern : String
  spacing : ℚ
  margin_top : ℚ
  margin_bottom : ℚ
  margin_left : ℚ
  margin_right : ℚ
  line_gray : ℚ
  line_weight : ℚ
  pages : ℤ
  pages_per_sheet : ℤ
  header_line : String
  page_numbers : String
  punch_holes : String

/-- `get_pagesize` of `generate.py`: `PAGE_SIZES.get(choice.lower(), A5)`
then orientation. -/
def get_pagesize (choice orientation : String) : ℚ × ℚ :=
  let size :=
    if choice.toLower = "a4" then A4
    else if choice.toLower = "a5" then A5
    else if choice.toLower = "a6" then A6
    else if choice.toLower = "b5" then B5
    else if choice.toLower = "letter" then LETTER
    else A5
  if orientation = "landscape" then landscape size else portrait size

/-- `draw_lined` of `generate.py`: optional emphasized header line at
`height - margin_top`, then horizontal lines downward every `spacing`
while strictly above the bottom margin. -/
def draw_lined (x_start y_start width height : ℚ) (config : Config) : List DrawOp :=
  let spacing := config.spacing * mmQ
  let margin_top := config.margin_top * mmQ
  let margin_bottom := config.margin_bottom * mmQ
  let margin_left := config.margin_left * mmQ
  let margin_right := config.margin_right * mmQ
  let header_y := y_start + height - margin_top
  let headerOps : List DrawOp :=
    if config.header_line = "yes" then
      [DrawOp.line (x_start + margin_left) header_y (x_start + width - margin_right) header_y]
    else []
  let start_y :=
    if config.header_line = "yes" then header_y - spacing * 2
    else y_start + height - margin_top - spacing
  headerOps ++
    loopDown
      (fun _ y => [DrawOp.line (x_start + margin_left) y (x_start + width - margin_right) y])
      (y_start + margin_bottom) spacing
      (downFuel start_y (y_start + margin_bottom) spacing) 0 start_y

/-- `draw_dotted` of `generate.py`: a dot lattice, row-major from
`height - margin_top` downward (strict against the bottom margin), each
row from `margin_left` rightward (strict against the right margin); dot
radius `line_weight * 0.6`, not unit-scaled, exactly as in the source. -/
def draw_dotted (x_start y_start width height : ℚ) (config : Config) : List DrawOp :=
  let spacing := config.spacing * mmQ
  let margin_top := config.margin_top * mmQ
  let margin_bottom := config.margin_bottom * mmQ
  let margin_left := config.margin_left * mmQ
  let margin_right := config.margin_right * mmQ
  let dot_radius := config.line_weight * (3 / 5)
  loopDown
    (fun _ y =>
      loopUpLT (fun _ x => [DrawOp.circle x y dot_radius true])
        (x_start + width - margin_right) spacing
        (upFuelLT (x_start + margin_left) (x_start + width - margin_right) spacing)
        0 (x_start + margin_left))
    (y_start + margin_bottom) spacing
    (downFuel (y_start + height - margin_top) (y_start + margin_bottom) spacing)
    0 (y_start + height - margin_top)

/-- The vertical lines of `draw_squared` of `generate.py`: `x` from the
left margin while `x <= right` (inclusive). -/
def squaredVerticals (x_start y_start width height : ℚ) (config : Config) : List DrawOp :=
  let spacing := config.spacing * mmQ
  let left := x_start + config.margin_left * mmQ
  let right := x_start + width - config.margin_right * mmQ
  let top := y_start + height - config.margin_top * mmQ
  let bottom := y_start + config.margin_bottom * mmQ
  loopUpLE (fun _ x => [DrawOp.line x bottom x top]) right spacing
    (upFuelLE left right spacing) 0 left

/-- The horizontal lines of `draw_squared` of `generate.py`: `y` from the
bottom margin while `y <= top` (inclusive). -/
def squaredHorizontals (x_start y_start width height : ℚ) (config : Config) : List DrawOp :=
  let spacing := config.spacing * mmQ
  let left := x_start + config.margin_left * mmQ
  let right := x_start + width - config.margin_right * mmQ
  let top := y_start + height - config.margin_top * mmQ
  let bottom := y_start + config.margin_bottom * mmQ
  loopUpLE (fun _ y => [DrawOp.line left y right y]) top spacing
    (upFuelLE bottom top spacing) 0 bottom

/-- `draw_squared` of `generate.py`: vertical lines then horizontal lines,
in source order. -/
def draw_squared (x_start y_start width height : ℚ) (config : Config) : List DrawOp :=
  squaredVerticals x_start y_start width height config ++
    squaredHorizontals x_start y_start width height config

/-- `draw_cornell` of `generate.py`.  The float literals `0.25` and `0.15`
are the exact rationals `1/4` and `3/20`. -/
def draw_cornell (x_start y_start width height : ℚ) (config : Config) : List DrawOp :=
  let margin := config.margin_left * mmQ
  let line_spacing := config.spacing * mmQ
  let cue_column_width := width * (1 / 4)
  let summary_height := height * (3 / 20)
  let cue_x := x_start + cue_column_width
  [DrawOp.line cue_x (y_start + summary_height) cue_x (y_start + height - margin),
   DrawOp.line (x_start + margin) (y_start + summary_height)
     (x_start + width - margin) (y_start + summary_height)] ++
  loopDown
    (fun _ y => [DrawOp.line (cue_x + margin / 2) y (x_start + width - margin) y])
    (y_start + summary_height + margin) line_spacing
    (downFuel (y_start + height - margin - line_spacing)
      (y_start + summary_height + margin) line_spacing)
    0 (y_start + height - margin - line_spacing)

/-- The source's `math.tan(math.radians(30))`, which is `sqrt 3 / 3`,
written in terms of the parameter `r3` standing for `sqrt 3`. -/
def tan30 (r3 : ℚ) : ℚ := r3 / 3

/-- Body of the first diagonal family of `draw_isometric` (anchor on the
bottom edge, going up-left), with the source's clip-to-left and
clip-to-right corrections and the final `y1 >= bottom and y2 <= top`
guard. -/
def isoDiag1Body (left right top bottom t x : ℚ) : List DrawOp :=
  let x1 := x
  let y1 := bottom
  let x2 := x - (top - bottom) / t
  let y2 := top
  let p2 : ℚ × ℚ := if x2 < left then (left, bottom + (x - left) * t) else (x2, y2)
  let p1 : ℚ × ℚ := if x1 > right then (right, bottom + (x - right) * t) else (x1, y1)
  if p1.2 ≥ bottom ∧ p2.2 ≤ top then [DrawOp.line p1.1 p1.2 p2.1 p2.2] else []

/-- Body of the second diagonal family of `draw_isometric` (going
up-right), with the source's clipping and guard. -/
def isoDiag2Body (left right top bottom t x : ℚ) : List DrawOp :=
  let x1 := x
  let y1 := bottom
  let x2 := x + (top - bottom) / t
  let y2 := top
  let p1 : ℚ × ℚ := if x1 < left then (left, bottom + (left - x) * t) else (x1, y1)
  let p2 : ℚ × ℚ := if x2 > right then (right, bottom + (right - x) * t) else (x2, y2)
  if p1.2 ≥ bottom ∧ p2.2 ≤ top then [DrawOp.line p1.1 p1.2 p2.1 p2.2] else []

/-- `draw_isometric` of `generate.py`: horizontal lines every `2*dy`, then
the two diagonal families, in source order.  Only `margin_left` is used,
on all four sides, as in the source. -/
def draw_isometric (r3 : ℚ) (x_start y_start width height : ℚ) (config : Config) : List DrawOp :=
  let spacing := config.spacing * mmQ
  let margin := config.margin_left * mmQ
  let left := x_start + margin
  let right := x_start + width - margin
  let top := y_start + height - margin
  let bottom := y_start + margin
  let t := tan30 r3
  let dx := spacing
  let dy := spacing * t
  loopUpLE (fun _ y => [DrawOp.line left y right y]) top (dy * 2)
    (upFuelLE bottom top (dy * 2)) 0 bottom ++
  loopUpLE (fun _ x => isoDiag1Body left right top bottom t x)
    (right + (top - bottom) / t) dx
    (upFuelLE left (right + (top - bottom) / t) dx) 0 left ++
  loopUpLE (fun _ x => isoDiag2Body left right top bottom t x) right dx
    (upFuelLE (left - (top - bottom) / t) right dx) 0 (left - (top - bottom) / t)

/-- `draw_hexagon` of `generate.py`: one closed six-vertex polygon; the
vertices sit at angles `60*i - 30` degrees from the centre, whose exact
cosine/sine values are `±(sqrt 3)/2`, `±(1/2)`, `0`, `±1`, written with
`r3` for `sqrt 3`. -/
def draw_hexagon (r3 cx cy size : ℚ) : List DrawOp :=
  [DrawOp.polygon
    [(cx + size * r3 / 2, cy - size / 2),
     (cx + size * r3 / 2, cy + size / 2),
     (cx, cy + size),
     (cx - size * r3 / 2, cy + size / 2),
     (cx - size * r3 / 2, cy - size / 2),
     (cx, cy - size)]]

/-- `draw_hexagonal` of `generate.py`: rows downward with pitch
`hex_height / 2` (`hex_height = size * sqrt 3`), odd rows offset right by
`hex_width * 0.75`; within a row, hexagons every `hex_width * 1.5`. -/
def draw_hexagonal (r3 : ℚ) (x_start y_start width height : ℚ) (config : Config) : List DrawOp :=
  let size := config.spacing * mmQ
  let margin := config.margin_left * mmQ
  let hex_width := size * 2
  let hex_height := size * r3
  loopDown
    (fun row y =>
      let offset := if row % 2 = 1 then hex_width * (3 / 4) else 0
      loopUpLT (fun _ x => draw_hexagon r3 x y size)
        (x_start + width - margin - size) (hex_width * (3 / 2))
        (upFuelLT (x_start + margin + size + offset)
          (x_start + width - margin - size) (hex_width * (3 / 2)))
        0 (x_start + margin + size + offset))
    (y_start + margin + size) (hex_height / 2)
    (downFuel (y_start + height - margin - size) (y_start + margin + size)
      (hex_height / 2))
    0 (y_start + height - margin - size)

/-- `draw_blank` of `generate.py`: draws nothing. -/
def draw_blank (x_start y_start width height : ℚ) (config : Config) : List DrawOp :=
  []

/-- `draw_pattern` of `generate.py`: dictionary dispatch over
`config["pattern"]` with `draw_squared` as the `.get` default for an
unrecognized kind. -/
def draw_pattern (r3 : ℚ) (x_start y_start width height : ℚ) (config : Config) : List DrawOp :=
  if config.pattern = "lined" then draw_lined x_start y_start width height config
  else if config.pattern = "dotted" then draw_dotted x_start y_start width height config
  else if config.pattern = "squared" then draw_squared x_start y_start width height config
  else if config.pattern = "cornell" then draw_cornell x_start y_start width height config
  else if config.pattern = "isometric" then draw_isometric r3 x_start y_start width height config
  else if config.pattern = "hexagonal" then draw_hexagonal r3 x_start y_start width height config
  else if config.pattern = "blank" then draw_blank x_start y_start width height config
  else draw_squared x_start y_start width height config

/-- `draw_page_number` of `generate.py`: even page number at
`x = margin_left`, odd at `x = page_width - margin_right`, at height
`margin_bottom / 2` (all in points; `page_height` is unused, as in the
source). -/
def draw_page_number (page_width page_height : ℚ) (page_num : ℤ) (config : Config) : List DrawOp :=
  let margin := config.margin_bottom * mmQ
  let x :=
    if page_num % 2 = 0 then config.margin_left * mmQ
    else page_width - config.margin_right * mmQ
  [DrawOp.text x (margin / 2) page_num]

/-- `draw_punch_holes` of `generate.py`.  The float literals `0.15`,
`0.38`, `0.62`, `0.85` are the exact rationals used below. -/
def draw_punch_holes (page_width page_height : ℚ) (hole_type : String) (margin : ℚ) : List DrawOp :=
  if hole_type = "none" then []
  else
    let hole_radius := 3 * mmQ
    let x := margin / 2
    let positions : List ℚ :=
      if hole_type = "2-hole" then
        [page_height / 2 - 40 * mmQ, page_height / 2 + 40 * mmQ]
      else if hole_type = "4-hole" then
        [page_height * (3 / 20), page_height * (19 / 50),
         page_height * (31 / 50), page_height * (17 / 20)]
      else []
    positions.map (fun y => DrawOp.circle x y hole_radius false)

/-- `create_imposed_page` of `generate.py`: the sheet imposer.  Arity 1
fills the sheet and optionally stamps a page number and punch-hole
guides; arity 2 draws two half-width pages, their page numbers (both
computed against `half_width`) and a fold guide; arity 4 draws four
quadrants and two fold guides (no page numbers); any other arity draws
nothing (the `if/elif` chain has no `else` branch). -/
def create_imposed_page (r3 : ℚ) (sheet_width sheet_height : ℚ)
    (pages_per_sheet start_page : ℤ) (config : Config) : List DrawOp :=
  if pages_per_sheet = 1 then
    draw_pattern r3 0 0 sheet_width sheet_height config ++
    (if config.page_numbers = "yes" ∧ start_page > 0 then
      draw_page_number sheet_width sheet_height start_page config
    else []) ++
    (if config.punch_holes ≠ "none" then
      draw_punch_holes sheet_width sheet_height config.punch_holes
        (config.margin_left * mmQ)
    else [])
  else if pages_per_sheet = 2 then
    let half_width := sheet_width / 2
    draw_pattern r3 0 0 half_width sheet_height config ++
    (if config.page_numbers = "yes" ∧ start_page > 0 then
      draw_page_number half_width sheet_height start_page config
    else []) ++
    draw_pattern r3 half_width 0 half_width sheet_height config ++
    (if config.page_numbers = "yes" ∧ start_page > 0 then
      draw_page_number half_width sheet_height (start_page + 1) config
    else []) ++
    [DrawOp.line half_width 0 half_width sheet_height]
  else if pages_per_sheet = 4 then
    let half_width := sheet_width / 2
    let half_height := sheet_height / 2
    draw_pattern r3 0 half_height half_width half_height config ++
    draw_pattern r3 half_width half_height half_width half_height config ++
    draw_pattern r3 0 0 half_width half_height config ++
    draw_pattern r3 half_width 0 half_width half_height config ++
    [DrawOp.line half_width 0 half_width sheet_height,
     DrawOp.line 0 half_height sheet_width half_height]
  else []

/-- The error outcomes of `create_notebook_pdf`.  `configurationError` is
the failure the spec prescribes for invalid configurations; the source
defines no such class and never raises it — the constructor exists so the
spec's claim about it is statable.  `zeroDivision` models Python's
`ZeroDivisionError` from `total_pages / pages_per_sheet` when
`pages_per_sheet = 0`, the only failure the source can actually hit. -/
inductive GenError
  | configurationError
  | zeroDivision
deriving DecidableEq

/-- `create_notebook_pdf` of `generate.py`: the document assembler.
`sheets_needed = ceil(total_pages / pages_per_sheet)`; sheet `i` is
produced by `create_imposed_page` with `start_page = i * pages_per_sheet + 1`.
The returned list holds one `DrawOp` sequence per output page. -/
def create_notebook_pdf (r3 : ℚ) (config : Config) :
    Except GenError (List (List DrawOp)) :=
  let size := get_pagesize config.page_size config.orientation
  let page_width := size.1
  let page_height := size.2
  let total_pages := config.pages
  let pages_per_sheet := config.pages_per_sheet
  if pages_per_sheet = 0 then .error .zeroDivision
  else
    let sheets_needed := (⌈(total_pages : ℚ) / (pages_per_sheet : ℚ)⌉).toNat
    .ok ((List.range sheets_needed).map (fun (sheet : ℕ) =>
      create_imposed_page r3 page_width page_height pages_per_sheet
        ((sheet : ℤ) * pages_per_sheet + 1) config))

end Generate

namespace Patterns

/-- `get_pagesize` of `generate_patterns.py`: only `a4` and `a5` are
recognized; anything else defaults to A4. -/
def get_pagesize (choice orientation : String) : ℚ × ℚ :=
  let size := if choice = "a4" then A4 else if choice = "a5" then A5 else A4
  if orientation = "landscape" then landscape size else portrait size

/-- `draw_lined` of `generate_patterns.py`.  `spacing` and `margin` are
already in points (the caller multiplies by `mm`). -/
def draw_lined (page_width page_height spacing margin : ℚ) : List DrawOp :=
  loopDown (fun _ y => [DrawOp.line margin y (page_width - margin) y])
    margin spacing (downFuel (page_height - margin - spacing) margin spacing)
    0 (page_height - margin - spacing)

/-- `draw_dotted` of `generate_patterns.py`: dots of radius `0.4`. -/
def draw_dotted (page_width page_height spacing margin : ℚ) : List DrawOp :=
  loopDown
    (fun _ y =>
      loopUpLT (fun _ x => [DrawOp.circle x y (2 / 5) true]) (page_width - margin)
        spacing (upFuelLT margin (page_width - margin) spacing) 0 margin)
    margin spacing (downFuel (page_height - margin) margin spacing)
    0 (page_height - margin)

/-- The vertical lines of `draw_squared` of `generate_patterns.py`:
`x` from `margin` while `x < page_width - margin` — a STRICT bound, unlike
the inclusive `<=` of `generate.py`. -/
def squaredVerticals (page_width page_height spacing margin : ℚ) : List DrawOp :=
  loopUpLT (fun _ x => [DrawOp.line x margin x (page_height - margin)])
    (page_width - margin) spacing (upFuelLT margin (page_width - margin) spacing)
    0 margin

/-- The horizontal lines of `draw_squared` of `generate_patterns.py`
(strict bound). -/
def squaredHorizontals (page_width page_height spacing margin : ℚ) : List DrawOp :=
  loopUpLT (fun _ y => [DrawOp.line margin y (page_width - margin) y])
    (page_height - margin) spacing (upFuelLT margin (page_height - margin) spacing)
    0 margin

/-- `draw_squared` of `generate_patterns.py`. -/
def draw_squared (page_width page_height spacing margin : ℚ) : List DrawOp :=
  squaredVerticals page_width page_height spacing margin ++
    squaredHorizontals page_width page_height spacing margin

/-- `draw_lined_split` of `generate_patterns.py`: the source decrements
`y` before drawing and tests `y - spacing > bottom` first, so each box's
lines start one spacing below the top and stop strictly above the bottom;
the commented-out `roundRect` calls emit nothing. -/
def draw_lined_split (page_width page_height spacing margin : ℚ) : List DrawOp :=
  let half_width := page_width / 2
  let box_width := half_width - 2 * margin
  let box_height := page_height - 2 * margin
  let left_x := margin
  let left_y := margin
  let right_x := half_width + margin
  let right_y := margin
  loopDown (fun _ y => [DrawOp.line (left_x + margin) y (left_x + box_width - margin) y])
    (left_y + margin) spacing
    (downFuel (left_y + box_height - margin - spacing) (left_y + margin) spacing)
    0 (left_y + box_height - margin - spacing) ++
  loopDown (fun _ y => [DrawOp.line (right_x + margin) y (right_x + box_width - margin) y])
    (right_y + margin) spacing
    (downFuel (right_y + box_height - margin - spacing) (right_y + margin) spacing)
    0 (right_y + box_height - margin - spacing)

/-- `create_pattern_pdf` of `generate_patterns.py`: only `lined`,
`dotted` and `squared` are dispatched; any other pattern raises
`ValueError("Unknown pattern")`, modelled as an `Except.error`. -/
def create_pattern_pdf (pagesize pattern orientation : String)
    (spacing margin : ℚ) (split : Bool) : Except String (List DrawOp) :=
  let size := get_pagesize pagesize orientation
  let page_width := size.1
  let page_height := size.2
  if pattern = "lined" then
    .ok (if split then draw_lined_split page_width page_height spacing margin
         else draw_lined page_width page_height spacing margin)
  else if pattern = "dotted" then
    .ok (draw_dotted page_width page_height spacing margin)
  else if pattern = "squared" then
    .ok (draw_squared page_width page_height spacing margin)
  else .error "Unknown pattern"

end Patterns

theorem loopDown_forall_all (P : DrawOp → Prop) {g : ℕ → ℚ → List DrawOp}
    {limit s : ℚ} (hg : ∀ k y, ∀ op ∈ g k y, P op) :
    ∀ fuel k y, ∀ op ∈ loopDown g limit s fuel k y, P op := by
  intro fuel
  induction fuel with
  | zero =>
    intro k y op hop
    simp [loopDown] at hop
  | succ n ih =>
    intro k y op hop
    by_cases hc : limit < y
    · simp only [loopDown, if_pos hc, List.mem_append] at hop
      rcases hop with hop | hop
      · exact hg k y op hop
      · exact ih (k + 1) (y - s) op hop
    · simp [loopDown, hc] at hop

theorem loopUpLE_forall_all (P : DrawOp → Prop) {g : ℕ → ℚ → List DrawOp}
    {bound s : ℚ} (hg : ∀ k y, ∀ op ∈ g k y, P op) :
    ∀ fuel k y, ∀ op ∈ loopUpLE g bound s fuel k y, P op := by
  intro fuel
  induction fuel with
  | zero =>
    intro k y op hop
    simp [loopUpLE] at hop
  | succ n ih =>
    intro k y op hop
    by_cases hc : y ≤ bound
    · simp only [loopUpLE, if_pos hc, List.mem_append] at hop
      rcases hop with hop | hop
      · exact hg k y op hop
      · exact ih (k + 1) (y + s) op hop
    · simp [loopUpLE, hc] at hop

theorem loopUpLT_forall_all (P : DrawOp → Prop) {g : ℕ → ℚ → List DrawOp}
    {bound s : ℚ} (hg : ∀ k y, ∀ op ∈ g k y, P op) :
    ∀ fuel k y, ∀ op ∈ loopUpLT g bound s fuel k y, P op := by
  intro fuel
  induction fuel with
  | zero =>
    intro k y op hop
    simp [loopUpLT] at hop
  | succ n ih =>
    intro k y op hop
    by_cases hc : y < bound
    · simp only [loopUpLT, if_pos hc, List.mem_append] at hop
      rcases hop with hop | hop
      · exact hg k y op hop
      · exact ih (k + 1) (y + s) op hop
    · simp [loopUpLT, hc] at hop

theorem flatMap_singleton_eq_map {α β : Type} (l : List α) (f : α → β) :
    l.flatMap (fun a => [f a]) = l.map f := by
  induction l with
  | nil => rfl
  | cons a t ih => simp [ih]

namespace Generate

theorem draw_lined_no_text (x_start y_start width height : ℚ) (cfg : Config) :
    ∀ op ∈ draw_lined x_start y_start width height cfg, op.isText = false := by
  intro op hop
  simp only [draw_lined] at hop
  rcases List.mem_append.mp hop with hop | hop
  · by_cases hh : cfg.header_line = "yes"
    · simp [hh] at hop
      subst hop
      rfl
    · simp [hh] at hop
  · refine loopDown_forall_all (fun op => op.isText = false) ?_ _ _ _ op hop
    intro k y op hop
    simp at hop
    subst hop
    rfl

theorem draw_dotted_no_text (x_start y_start width height : ℚ) (cfg : Config) :
    ∀ op ∈ draw_dotted x_start y_start width height cfg, op.isText = false := by
  intro op hop
  simp only [draw_dotted] at hop
  refine loopDown_forall_all (fun op => op.isText = false) ?_ _ _ _ op hop
  intro k y op hop
  refine loopUpLT_forall_all (fun op => op.isText = false) ?_ _ _ _ op hop
  intro k x op hop
  simp at hop
  subst hop
  rfl

theorem draw_squared_no_text (x_start y_start width height : ℚ) (cfg : Config) :
    ∀ op ∈ draw_squared x_start y_start width height cfg, op.isText = false := by
  intro op hop
  simp only [draw_squared, squaredVerticals, squaredHorizontals] at hop
  rcases List.mem_append.mp hop with hop | hop <;>
  · refine loopUpLE_forall_all (fun op => op.isText = false) ?_ _ _ _ op hop
    intro k z op hop
    simp at hop
    subst hop
    rfl

theorem draw_cornell_no_text (x_start y_start width height : ℚ) (cfg : Config) :
    ∀ op ∈ draw_cornell x_start y_start width height cfg, op.isText = false := by
  intro op hop
  simp only [draw_cornell] at hop
  rcases List.mem_append.mp hop with hop | hop
  · rcases List.mem_cons.mp hop with hop | hop
    · subst hop
      rfl
    · have hop := List.mem_singleton.mp hop
      subst hop
      rfl
  · refine loopDown_forall_all (fun op => op.isText = false) ?_ _ _ _ op hop
    intro k y op hop
    simp at hop
    subst hop
    rfl

/-- Membership in a conditional singleton line emits only line ops. -/
theorem no_text_of_mem_ite_line {c : Prop} [Decidable c] {a b d e : ℚ} {op : DrawOp}
    (hop : op ∈ if c then [DrawOp.line a b d e] else []) : op.isText = false := by
  by_cases hc : c
  · rw [if_pos hc] at hop
    simp at hop
    subst hop
    rfl
  · rw [if_neg hc] at hop
    simp at hop

theorem isoDiag1Body_no_text (left right top bottom t x : ℚ) :
    ∀ op ∈ isoDiag1Body left right top bottom t x, op.isText = false := by
  intro op hop
  simp only [isoDiag1Body] at hop
  exact no_text_of_mem_ite_line hop

theorem isoDiag2Body_no_text (left right top bottom t x : ℚ) :
    ∀ op ∈ isoDiag2Body left right top bottom t x, op.isText = false := by
  intro op hop
  simp only [isoDiag2Body] at hop
  exact no_text_of_mem_ite_line hop

theorem draw_isometric_no_text (r3 x_start y_start width height : ℚ) (cfg : Config) :
    ∀ op ∈ draw_isometric r3 x_start y_start width height cfg, op.isText = false := by
  intro op hop
  simp only [draw_isometric, List.append_assoc] at hop
  rcases List.mem_append.mp hop with hop | hop
  · refine loopUpLE_forall_all (fun op => op.isText = false) ?_ _ _ _ op hop
    intro k y op hop
    simp at hop
    subst hop
    rfl
  rcases List.mem_append.mp hop with hop | hop
  · refine loopUpLE_forall_all (fun op => op.isText = false) ?_ _ _ _ op hop
    intro k x op hop
    exact isoDiag1Body_no_text _ _ _ _ _ _ op hop
  · refine loopUpLE_forall_all (fun op => op.isText = false) ?_ _ _ _ op hop
    intro k x op hop
    exact isoDiag2Body_no_text _ _ _ _ _ _ op hop

theorem draw_hexagonal_no_text (r3 x_start y_start width height : ℚ) (cfg : Config) :
    ∀ op ∈ draw_hexagonal r3 x_start y_start width height cfg, op.isText = false := by
  intro op hop
  simp only [draw_hexagonal] at hop
  refine loopDown_forall_all (fun op => op.isText = false) ?_ _ _ _ op hop
  intro k y op hop
  refine loopUpLT_forall_all (fun op => op.isText = false) ?_ _ _ _ op hop
  intro k x op hop
  simp [draw_hexagon] at hop
  subst hop
  rfl

theorem draw_pattern_no_text (r3 x_start y_start width height : ℚ) (cfg : Config) :
    ∀ op ∈ draw_pattern r3 x_start y_start width height cfg, op.isText = false := by
  intro op hop
  simp only [draw_pattern] at hop
  split at hop
  · exact draw_lined_no_text _ _ _ _ _ op hop
  split at hop
  · exact draw_dotted_no_text _ _ _ _ _ op hop
  split at hop
  · exact draw_squared_no_text _ _ _ _ _ op hop
  split at hop
  · exact draw_cornell_no_text _ _ _ _ _ op hop
  split at hop
  · exact draw_isometric_no_text _ _ _ _ _ _ op hop
  split at hop
  · exact draw_hexagonal_no_text _ _ _ _ _ _ op hop
  split at hop
  · simp [draw_blank] at hop
  · exact draw_squared_no_text _ _ _ _ _ op hop

theorem draw_punch_holes_no_text (page_width page_height : ℚ) (hole_type : String)
    (margin : ℚ) :
    ∀ op ∈ draw_punch_holes page_width page_height hole_type margin, op.isText = false := by
  intro op hop
  simp only [draw_punch_holes] at hop
  split at hop
  · simp at hop
  · rcases List.mem_map.mp hop with ⟨y, _, hy⟩
    subst hy
    rfl

theorem draw_pattern_filter_text (r3 x_start y_start width height : ℚ) (cfg : Config) :
    (draw_pattern r3 x_start y_start width height cfg).filter (fun op => op.isText) = [] := by
  rw [List.filter_eq_nil_iff]
  intro op hop
  simp [draw_pattern_no_text r3 x_start y_start width height cfg op hop]

theorem draw_punch_holes_filter_text (page_width page_height : ℚ) (hole_type : String)
    (margin : ℚ) :
    (draw_punch_holes page_width page_height hole_type margin).filter
      (fun op => op.isText) = [] := by
  rw [List.filter_eq_nil_iff]
  intro op hop
  simp [draw_punch_holes_no_text page_width page_height hole_type margin op hop]

theorem create_imposed_page_eq_nil (r3 sheet_width sheet_height : ℚ)
    (pages_per_sheet start_page : ℤ) (cfg : Config)
    (h1 : pages_per_sheet ≠ 1) (h2 : pages_per_sheet ≠ 2) (h4 : pages_per_sheet ≠ 4) :
    create_imposed_page r3 sheet_width sheet_height pages_per_sheet start_page cfg = [] := by
  simp [create_imposed_page, h1, h2, h4]

theorem create_notebook_pdf_eq (r3 : ℚ) (cfg : Config)
    (h : cfg.pages_per_sheet ≠ 0) :
    create_notebook_pdf r3 cfg =
      .ok ((List.range ((⌈(cfg.pages : ℚ) / (cfg.pages_per_sheet : ℚ)⌉).toNat)).map
        (fun (sheet : ℕ) =>
          create_imposed_page r3 (get_pagesize cfg.page_size cfg.orientation).1
            (get_pagesize cfg.page_size cfg.orientation).2 cfg.pages_per_sheet
            ((sheet : ℤ) * cfg.pages_per_sheet + 1) cfg)) := by
  simp [create_notebook_pdf, h]

end Generate

/-- A baseline configuration used by the concrete instances below: A5
portrait, blank pattern, spacing 5mm, margins 10/10/15/10mm, gray 75,
weight 0.3pt, 32 pages, 1 page per sheet, no header, no page numbers, no
punch holes (the defaults of `CONFIG_SCHEMA` in `generate.py`). -/
def cfgBase : Generate.Config :=
  ⟨"a5", "portrait", "blank", 5, 10, 10, 15, 10, 75, 3 / 10, 32, 1, "no", "no", "none"⟩

/-- A configuration with the invalid arity 3 and 5 pages (everything else
as `cfgBase`). -/
def cfgArity3 : Generate.Config :=
  ⟨"a5", "portrait", "blank", 5, 10, 10, 15, 10, 75, 3 / 10, 5, 3, "no", "no", "none"⟩

/-- C1, counterexample: with `pages_per_sheet = 3` and `total_pages = 5`
generation does NOT fail with a ConfigurationError — it completes
normally, returning `ceil(5/3) = 2` sheets, each with an empty drawing
sequence. -/
theorem claim1_counterexample :
    Generate.create_notebook_pdf (7 / 4) cfgArity3 = Except.ok [[], []] := by
  rw [Generate.create_notebook_pdf_eq (7 / 4) cfgArity3 (by decide)]
  have hc : ⌈(cfgArity3.pages : ℚ) / (cfgArity3.pages_per_sheet : ℚ)⌉ = 2 := by
    show ⌈((5 : ℤ) : ℚ) / ((3 : ℤ) : ℚ)⌉ = (2 : ℤ)
    rw [Int.ceil_eq_iff]
    push_cast
    norm_num
  rw [hc]
  have hnil : ∀ sp : ℤ, Generate.create_imposed_page (7 / 4)
      (Generate.get_pagesize cfgArity3.page_size cfgArity3.orientation).1
      (Generate.get_pagesize cfgArity3.page_size cfgArity3.orientation).2
      cfgArity3.pages_per_sheet sp cfgArity3 = [] :=
    fun sp => Generate.create_imposed_page_eq_nil _ _ _ _ _ _ (by decide) (by decide) (by decide)
  rw [show List.range (Int.toNat 2) = [0, 1] from rfl]
  simp [hnil]

/-- C1 (amended): `generate.py` performs no arity or page-count
validation and defines no ConfigurationError.  For any
`pages_per_sheet ∉ {1, 2, 4}` other than 0, assembly completes normally
and every produced sheet carries no drawing operation at all; for
`pages_per_sheet = 0` it fails with Python's ZeroDivisionError (not a
ConfigurationError); for `total_pages < 1` (any positive arity) it
completes normally with zero sheets. -/
theorem claim1_invalid_arity :
    (∀ (r3 : ℚ) (cfg : Generate.Config),
        cfg.pages_per_sheet ≠ 1 → cfg.pages_per_sheet ≠ 2 → cfg.pages_per_sheet ≠ 4 →
        cfg.pages_per_sheet ≠ 0 →
        ∃ sheets, Generate.create_notebook_pdf r3 cfg = Except.ok sheets ∧
          ∀ ops ∈ sheets, ops = []) ∧
    (∀ (r3 : ℚ) (cfg : Generate.Config), cfg.pages_per_sheet = 0 →
        Generate.create_notebook_pdf r3 cfg =
          Except.error Generate.GenError.zeroDivision) ∧
    (∀ (r3 : ℚ) (cfg : Generate.Config), 0 < cfg.pages_per_sheet → cfg.pages < 1 →
        Generate.create_notebook_pdf r3 cfg = Except.ok []) := by
  refine ⟨?_, ?_, ?_⟩
  · intro r3 cfg h1 h2 h4 h0
    refine ⟨_, Generate.create_notebook_pdf_eq r3 cfg h0, ?_⟩
    intro ops hops
    rcases List.mem_map.mp hops with ⟨i, _, hi⟩
    rw [← hi]
    exact Generate.create_imposed_page_eq_nil _ _ _ _ _ _ h1 h2 h4
  · intro r3 cfg h0
    simp [Generate.create_notebook_pdf, h0]
  · intro r3 cfg hpos hlt
    rw [Generate.create_notebook_pdf_eq r3 cfg (by omega)]
    have hq : (cfg.pages : ℚ) / (cfg.pages_per_sheet : ℚ) ≤ 0 := by
      apply div_nonpos_of_nonpos_of_nonneg
      · exact_mod_cast (by omega : cfg.pages ≤ 0)
      · exact_mod_cast hpos.le
    have hc : ⌈(cfg.pages : ℚ) / (cfg.pages_per_sheet : ℚ)⌉ ≤ 0 :=
      Int.ceil_le.mpr (by exact_mod_cast hq)
    rw [Int.toNat_of_nonpos hc]
    simp

/-- C1, witness: the amended statement applied to the arity-3
configuration. -/
theorem claim1_witness :
    (cfgArity3.pages_per_sheet ≠ 1 ∧ cfgArity3.pages_per_sheet ≠ 0) ∧
    (∃ sheets, Generate.create_notebook_pdf (7 / 4) cfgArity3 = Except.ok sheets ∧
      ∀ ops ∈ sheets, ops = []) :=
  ⟨⟨by decide, by decide⟩,
   claim1_invalid_arity.1 (7 / 4) cfgArity3 (by decide) (by decide) (by decide) (by decide)⟩

/-- A configuration whose pattern name is not one of the seven recognized
kinds. -/
def cfgUnknown : Generate.Config :=
  ⟨"a5", "portrait", "zigzag", 5, 10, 10, 15, 10, 75, 3 / 10, 32, 1, "no", "no", "none"⟩

/-- C4, counterexample: in `generate_patterns.py` an unrecognized pattern
does NOT fall back to Squared — `create_pattern_pdf` fails with
`ValueError("Unknown pattern")`. -/
theorem claim4_counterexample :
    Patterns.create_pattern_pdf "a4" "zigzag" "portrait" 5 5 false =
      Except.error "Unknown pattern" := by
  have h1 : ("zigzag" : String) ≠ "lined" := by decide
  have h2 : ("zigzag" : String) ≠ "dotted" := by decide
  have h3 : ("zigzag" : String) ≠ "squared" := by decide
  simp [Patterns.create_pattern_pdf, h1, h2, h3]

/-- C4 (amended): `generate.py`'s `draw_pattern` falls back to the Squared
generator for any unrecognized kind, silently — the emitted operation
stream is exactly `draw_squared`'s, with no warning of any form — while
`generate_patterns.py`'s `create_pattern_pdf` instead fails with
`ValueError("Unknown pattern")` for any kind outside its three. -/
theorem claim4_unknown_pattern_fallback :
    (∀ (r3 x_start y_start width height : ℚ) (cfg : Generate.Config),
        cfg.pattern ≠ "lined" → cfg.pattern ≠ "dotted" → cfg.pattern ≠ "squared" →
        cfg.pattern ≠ "cornell" → cfg.pattern ≠ "isometric" →
        cfg.pattern ≠ "hexagonal" → cfg.pattern ≠ "blank" →
        Generate.draw_pattern r3 x_start y_start width height cfg =
          Generate.draw_squared x_start y_start width height cfg) ∧
    (∀ (pagesize pattern orientation : String) (spacing margin : ℚ) (split : Bool),
        pattern ≠ "lined" → pattern ≠ "dotted" → pattern ≠ "squared" →
        Patterns.create_pattern_pdf pagesize pattern orientation spacing margin split =
          Except.error "Unknown pattern") := by
  constructor
  · intro r3 xs ys w h cfg h1 h2 h3 h4 h5 h6 h7
    simp [Generate.draw_pattern, h1, h2, h3, h4, h5, h6, h7]
  · intro ps p o s m sp h1 h2 h3
    simp [Patterns.create_pattern_pdf, h1, h2, h3]

/-- C4, witness: the unknown kind `"zigzag"` dispatches to Squared in
`generate.py` and errors in `generate_patterns.py`. -/
theorem claim4_witness :
    (cfgUnknown.pattern ≠ "lined" ∧ ("zigzag" : String) ≠ "squared") ∧
    (Generate.draw_pattern (7 / 4) 0 0 100 200 cfgUnknown =
      Generate.draw_squared 0 0 100 200 cfgUnknown) ∧
    (Patterns.create_pattern_pdf "a4" "zigzag" "portrait" 5 5 false =
      Except.error "Unknown pattern") :=
  ⟨⟨by decide, by decide⟩,
   claim4_unknown_pattern_fallback.1 (7 / 4) 0 0 100 200 cfgUnknown (by decide) (by decide)
     (by decide) (by decide) (by decide) (by decide) (by decide),
   claim4_unknown_pattern_fallback.2 "a4" "zigzag" "portrait" 5 5 false (by decide)
     (by decide) (by decide)⟩

/-- 32 pages at 4 pages per sheet. -/
def cfg32 : Generate.Config :=
  ⟨"a5", "portrait", "blank", 5, 10, 10, 15, 10, 75, 3 / 10, 32, 4, "no", "no", "none"⟩

/-- 33 pages at 4 pages per sheet. -/
def cfg33 : Generate.Config :=
  ⟨"a5", "portrait", "blank", 5, 10, 10, 15, 10, 75, 3 / 10, 33, 4, "no", "no", "none"⟩

/-- C5 (confirmed): for any legal arity and `total_pages ≥ 1` the
assembler produces exactly `ceil(total_pages / pages_per_sheet)` sheets,
and sheet `i` is the imposition invoked with
`start_page = i * pages_per_sheet + 1`; in particular 32 pages at 4 per
sheet give 8 sheets, and 33 give 9. -/
theorem claim5_sheet_count :
    (∀ (r3 : ℚ) (cfg : Generate.Config),
        (cfg.pages_per_sheet = 1 ∨ cfg.pages_per_sheet = 2 ∨ cfg.pages_per_sheet = 4) →
        1 ≤ cfg.pages →
        ∃ sheets, Generate.create_notebook_pdf r3 cfg = Except.ok sheets ∧
          (sheets.length : ℤ) = ⌈(cfg.pages : ℚ) / (cfg.pages_per_sheet : ℚ)⌉ ∧
          ∀ i : ℕ, i < sheets.length →
            sheets[i]? = some (Generate.create_imposed_page r3
              (Generate.get_pagesize cfg.page_size cfg.orientation).1
              (Generate.get_pagesize cfg.page_size cfg.orientation).2
              cfg.pages_per_sheet ((i : ℤ) * cfg.pages_per_sheet + 1) cfg)) ∧
    (∃ sheets, Generate.create_notebook_pdf (7 / 4) cfg32 = Except.ok sheets ∧
      sheets.length = 8) ∧
    (∃ sheets, Generate.create_notebook_pdf (7 / 4) cfg33 = Except.ok sheets ∧
      sheets.length = 9) := by
  refine ⟨?_, ?_, ?_⟩
  · intro r3 cfg hpps hpages
    have h0 : cfg.pages_per_sheet ≠ 0 := by rcases hpps with h | h | h <;> omega
    have hpos : 0 < cfg.pages_per_sheet := by rcases hpps with h | h | h <;> omega
    have hq : 0 ≤ (cfg.pages : ℚ) / (cfg.pages_per_sheet : ℚ) := by
      apply div_nonneg
      · exact_mod_cast (by omega : (0 : ℤ) ≤ cfg.pages)
      · exact_mod_cast hpos.le
    have hceil0 : 0 ≤ ⌈(cfg.pages : ℚ) / (cfg.pages_per_sheet : ℚ)⌉ := by
      have h2 : (0 : ℚ) ≤ (⌈(cfg.pages : ℚ) / (cfg.pages_per_sheet : ℚ)⌉ : ℚ) :=
        le_trans hq (Int.le_ceil _)
      exact_mod_cast h2
    refine ⟨_, Generate.create_notebook_pdf_eq r3 cfg h0, ?_, ?_⟩
    · rw [List.length_map, List.length_range]
      exact Int.toNat_of_nonneg hceil0
    · intro i hi
      rw [List.length_map, List.length_range] at hi
      simp [List.getElem?_map, List.getElem?_range, hi]
  · have hc : ⌈(cfg32.pages : ℚ) / (cfg32.pages_per_sheet : ℚ)⌉ = 8 := by
      show ⌈((32 : ℤ) : ℚ) / ((4 : ℤ) : ℚ)⌉ = (8 : ℤ)
      rw [Int.ceil_eq_iff]
      push_cast
      norm_num
    refine ⟨_, Generate.create_notebook_pdf_eq (7 / 4) cfg32 (by decide), ?_⟩
    rw [List.length_map, List.length_range, hc]
    rfl
  · have hc : ⌈(cfg33.pages : ℚ) / (cfg33.pages_per_sheet : ℚ)⌉ = 9 := by
      show ⌈((33 : ℤ) : ℚ) / ((4 : ℤ) : ℚ)⌉ = (9 : ℤ)
      rw [Int.ceil_eq_iff]
      push_cast
      norm_num
    refine ⟨_, Generate.create_notebook_pdf_eq (7 / 4) cfg33 (by decide), ?_⟩
    rw [List.length_map, List.length_range, hc]
    rfl

/-- C5, witness: the general statement applied to `cfg32`. -/
theorem claim5_witness :
    ((cfg32.pages_per_sheet = 1 ∨ cfg32.pages_per_sheet = 2 ∨ cfg32.pages_per_sheet = 4) ∧
      1 ≤ cfg32.pages) ∧
    (∃ sheets, Generate.create_notebook_pdf (7 / 4) cfg32 = Except.ok sheets ∧
      (sheets.length : ℤ) = ⌈(cfg32.pages : ℚ) / (cfg32.pages_per_sheet : ℚ)⌉ ∧
      ∀ i : ℕ, i < sheets.length →
        sheets[i]? = some (Generate.create_imposed_page (7 / 4)
          (Generate.get_pagesize cfg32.page_size cfg32.orientation).1
          (Generate.get_pagesize cfg32.page_size cfg32.orientation).2
          cfg32.pages_per_sheet ((i : ℤ) * cfg32.pages_per_sheet + 1) cfg32)) :=
  ⟨⟨by decide, by decide⟩,
   claim5_sheet_count.1 (7 / 4) cfg32 (by decide) (by decide)⟩

/-- C6 (confirmed): the generators and the dispatcher are pure functions
of their arguments; two invocations on the same `(rect, config)` yield
the same ordered operation sequence. -/
theorem claim6_determinism :
    ∀ (r3 x_start y_start width height : ℚ) (cfg : Generate.Config),
      (Generate.draw_lined x_start y_start width height cfg =
        Generate.draw_lined x_start y_start width height cfg) ∧
      (Generate.draw_dotted x_start y_start width height cfg =
        Generate.draw_dotted x_start y_start width height cfg) ∧
      (Generate.draw_squared x_start y_start width height cfg =
        Generate.draw_squared x_start y_start width height cfg) ∧
      (Generate.draw_cornell x_start y_start width height cfg =
        Generate.draw_cornell x_start y_start width height cfg) ∧
      (Generate.draw_isometric r3 x_start y_start width height cfg =
        Generate.draw_isometric r3 x_start y_start width height cfg) ∧
      (Generate.draw_hexagonal r3 x_start y_start width height cfg =
        Generate.draw_hexagonal r3 x_start y_start width height cfg) ∧
      (Generate.draw_blank x_start y_start width height cfg =
        Generate.draw_blank x_start y_start width height cfg) ∧
      (Generate.draw_pattern r3 x_start y_start width height cfg =
        Generate.draw_pattern r3 x_start y_start width height cfg) :=
  fun _ _ _ _ _ _ => ⟨rfl, rfl, rfl, rfl, rfl, rfl, rfl, rfl⟩

theorem upFuelLE_cast {y bound s : ℚ} (hs : 0 < s) (h : 0 ≤ bound - y) :
    ((upFuelLE y bound s : ℕ) : ℤ) = ⌊(bound - y) / s⌋ + 1 := by
  have h0 : 0 ≤ ⌊(bound - y) / s⌋ :=
    Int.le_floor.mpr (by exact_mod_cast div_nonneg h hs.le)
  unfold upFuelLE
  omega

theorem upFuelLT_cast {y bound s : ℚ} (hs : 0 < s) (h : 0 ≤ bound - y) :
    ((upFuelLT y bound s : ℕ) : ℤ) = ⌈(bound - y) / s⌉ := by
  have h0 : 0 ≤ ⌈(bound - y) / s⌉ := by
    have h1 : (0 : ℚ) ≤ (⌈(bound - y) / s⌉ : ℚ) :=
      le_trans (div_nonneg h hs.le) (Int.le_ceil _)
    exact_mod_cast h1
  unfold upFuelLT
  omega

/-- C3, counterexample: for `generate_patterns.py`'s Squared generator
with `page_width = 20`, `margin = 5` (drawable width `W = 10`) and
spacing `s = 5`, the number of vertical lines is 2, not
`floor(W/s) + 1 = 3` — the strict `<` bound drops the boundary line when
`s` divides `W`. -/
theorem claim3_counterexample :
    ¬ (((Patterns.squaredVerticals 20 30 5 5).length : ℤ) =
        ⌊((20 : ℚ) - (5 + 5)) / 5⌋ + 1) := by
  have hs : (0 : ℚ) < 5 := by norm_num
  have hlen : ((Patterns.squaredVerticals 20 30 5 5).length : ℤ) = 2 := by
    show ((loopUpLT (fun _ x => [DrawOp.line x 5 x (30 - 5)]) (20 - 5) 5
        (upFuelLT 5 (20 - 5) 5) 0 5).length : ℤ) = 2
    rw [loopUpLT_length (fun _ x => [DrawOp.line x 5 x (30 - 5)]) hs
      (fun _ _ => rfl) _ _ _ le_rfl]
    rw [upFuelLT_cast hs (by norm_num)]
    rw [show ((20 : ℚ) - 5 - 5) / 5 = 2 by norm_num]
    norm_num
  have hrhs : ⌊((20 : ℚ) - (5 + 5)) / 5⌋ + 1 = 3 := by
    rw [show ((20 : ℚ) - (5 + 5)) / 5 = 2 by norm_num]
    norm_num
  omega

/-- C3 (amended): `generate.py`'s `draw_squared` (inclusive `<=` bound)
draws exactly `floor(W/s) + 1` vertical and `floor(H/s) + 1` horizontal
lines for nonnegative drawable width `W` and height `H`, and a vertical
line at position `p = left + k*s` is drawn iff `p ≤ right` (inclusive
boundary policy); `generate_patterns.py`'s `draw_squared` uses a strict
`<` bound instead and draws `ceil(W/s)` vertical and `ceil(H/s)`
horizontal lines, which is `floor(W/s) + 1` only when `s` does not divide
`W`. -/
theorem claim3_squared_grid_count :
    (∀ (x_start y_start width height : ℚ) (cfg : Generate.Config),
        0 < cfg.spacing →
        0 ≤ width - (cfg.margin_left + cfg.margin_right) * mmQ →
        0 ≤ height - (cfg.margin_top + cfg.margin_bottom) * mmQ →
        (((Generate.squaredVerticals x_start y_start width height cfg).length : ℤ) =
            ⌊(width - (cfg.margin_left + cfg.margin_right) * mmQ) /
              (cfg.spacing * mmQ)⌋ + 1) ∧
        (((Generate.squaredHorizontals x_start y_start width height cfg).length : ℤ) =
            ⌊(height - (cfg.margin_top + cfg.margin_bottom) * mmQ) /
              (cfg.spacing * mmQ)⌋ + 1) ∧
        (∀ k : ℕ,
          DrawOp.line (x_start + cfg.margin_left * mmQ + (k : ℚ) * (cfg.spacing * mmQ))
              (y_start + cfg.margin_bottom * mmQ)
              (x_start + cfg.margin_left * mmQ + (k : ℚ) * (cfg.spacing * mmQ))
              (y_start + height - cfg.margin_top * mmQ) ∈
            Generate.squaredVerticals x_start y_start width height cfg ↔
          x_start + cfg.margin_left * mmQ + (k : ℚ) * (cfg.spacing * mmQ) ≤
            x_start + width - cfg.margin_right * mmQ)) ∧
    (∀ (page_width page_height spacing margin : ℚ),
        0 < spacing →
        0 ≤ page_width - 2 * margin → 0 ≤ page_height - 2 * margin →
        (((Patterns.squaredVerticals page_width page_height spacing margin).length : ℤ) =
            ⌈(page_width - 2 * margin) / spacing⌉) ∧
        (((Patterns.squaredHorizontals page_width page_height spacing margin).length : ℤ) =
            ⌈(page_height - 2 * margin) / spacing⌉)) := by
  constructor
  · intro xs ys w h cfg hs hW hH
    have hsp : (0 : ℚ) < cfg.spacing * mmQ := mul_pos hs mmQ_pos
    have hargW : xs + w - cfg.margin_right * mmQ - (xs + cfg.margin_left * mmQ) =
        w - (cfg.margin_left + cfg.margin_right) * mmQ := by ring
    have hargH : ys + h - cfg.margin_top * mmQ - (ys + cfg.margin_bottom * mmQ) =
        h - (cfg.margin_top + cfg.margin_bottom) * mmQ := by ring
    have hWd : 0 ≤ xs + w - cfg.margin_right * mmQ - (xs + cfg.margin_left * mmQ) := by
      rw [hargW]
      exact hW
    have hHd : 0 ≤ ys + h - cfg.margin_top * mmQ - (ys + cfg.margin_bottom * mmQ) := by
      rw [hargH]
      exact hH
    refine ⟨?_, ?_, ?_⟩
    · simp only [Generate.squaredVerticals]
      rw [loopUpLE_length
        (fun _ x => [DrawOp.line x (ys + cfg.margin_bottom * mmQ)
          x (ys + h - cfg.margin_top * mmQ)]) hsp (fun _ _ => rfl) _ _ _ le_rfl]
      rw [upFuelLE_cast hsp hWd, hargW]
    · simp only [Generate.squaredHorizontals]
      rw [loopUpLE_length
        (fun _ y => [DrawOp.line (xs + cfg.margin_left * mmQ) y
          (xs + w - cfg.margin_right * mmQ) y]) hsp (fun _ _ => rfl) _ _ _ le_rfl]
      rw [upFuelLE_cast hsp hHd, hargH]
    · intro k
      simp only [Generate.squaredVerticals]
      rw [loopUpLE_eq hsp _ _ _ le_rfl]
      have hNval := upFuelLE_cast hsp hWd
      constructor
      · intro hmem
        rcases List.mem_flatMap.mp hmem with ⟨i, hiN, hopi⟩
        have heq := List.mem_singleton.mp hopi
        have hx : xs + cfg.margin_left * mmQ + (k : ℚ) * (cfg.spacing * mmQ) =
            xs + cfg.margin_left * mmQ + (i : ℚ) * (cfg.spacing * mmQ) := by
          have := congrArg (fun op : DrawOp =>
            match op with
            | DrawOp.line x1 _ _ _ => x1
            | _ => 0) heq
          simpa using this
        have hki : (k : ℚ) = (i : ℚ) := by
          have h1 : (k : ℚ) * (cfg.spacing * mmQ) = (i : ℚ) * (cfg.spacing * mmQ) := by
            linarith
          exact mul_right_cancel₀ (ne_of_gt hsp) h1
        have hki2 : k = i := by exact_mod_cast hki
        subst hki2
        have hiN2 := List.mem_range.mp hiN
        have hkZ : (k : ℤ) < ((upFuelLE (xs + cfg.margin_left * mmQ)
            (xs + w - cfg.margin_right * mmQ) (cfg.spacing * mmQ) : ℕ) : ℤ) := by
          exact_mod_cast hiN2
        rw [hNval] at hkZ
        have hkF : (k : ℤ) ≤ ⌊(xs + w - cfg.margin_right * mmQ -
            (xs + cfg.margin_left * mmQ)) / (cfg.spacing * mmQ)⌋ := by omega
        have hkQ : (k : ℚ) ≤ (xs + w - cfg.margin_right * mmQ -
            (xs + cfg.margin_left * mmQ)) / (cfg.spacing * mmQ) := by
          have := Int.le_floor.mp hkF
          exact_mod_cast this
        have := (le_div_iff₀ hsp).mp hkQ
        linarith
      · intro hle
        have hkQ : (k : ℚ) ≤ (xs + w - cfg.margin_right * mmQ -
            (xs + cfg.margin_left * mmQ)) / (cfg.spacing * mmQ) := by
          rw [le_div_iff₀ hsp]
          linarith
        have hkF : (k : ℤ) ≤ ⌊(xs + w - cfg.margin_right * mmQ -
            (xs + cfg.margin_left * mmQ)) / (cfg.spacing * mmQ)⌋ :=
          Int.le_floor.mpr (by exact_mod_cast hkQ)
        have hkN : k < upFuelLE (xs + cfg.margin_left * mmQ)
            (xs + w - cfg.margin_right * mmQ) (cfg.spacing * mmQ) := by
          have : (k : ℤ) < ((upFuelLE (xs + cfg.margin_left * mmQ)
              (xs + w - cfg.margin_right * mmQ) (cfg.spacing * mmQ) : ℕ) : ℤ) := by
            rw [hNval]
            omega
          exact_mod_cast this
        exact List.mem_flatMap.mpr ⟨k, List.mem_range.mpr hkN, by simp⟩
  · intro pw ph s m hs hW hH
    have hargW : pw - m - m = pw - 2 * m := by ring
    have hargH : ph - m - m = ph - 2 * m := by ring
    have hWd : 0 ≤ pw - m - m := by
      rw [hargW]
      exact hW
    have hHd : 0 ≤ ph - m - m := by
      rw [hargH]
      exact hH
    constructor
    · simp only [Patterns.squaredVerticals]
      rw [loopUpLT_length (fun _ x => [DrawOp.line x m x (ph - m)]) hs
        (fun _ _ => rfl) _ _ _ le_rfl]
      rw [upFuelLT_cast hs hWd, hargW]
    · simp only [Patterns.squaredHorizontals]
      rw [loopUpLT_length (fun _ y => [DrawOp.line m y (pw - m) y]) hs
        (fun _ _ => rfl) _ _ _ le_rfl]
      rw [upFuelLT_cast hs hHd, hargH]

/-- C3, witness: the amended counts at a concrete rectangle: `generate.py`
squared on a 200×300pt rectangle with `cfgBase`, and the patterns variant
on a 20×30pt page with 4pt margin and 5pt spacing. -/
theorem claim3_witness :
    ((0 : ℚ) < cfgBase.spacing ∧
      0 ≤ (200 : ℚ) - (cfgBase.margin_left + cfgBase.margin_right) * mmQ ∧
      0 ≤ (300 : ℚ) - (cfgBase.margin_top + cfgBase.margin_bottom) * mmQ) ∧
    (((Generate.squaredVerticals 0 0 200 300 cfgBase).length : ℤ) =
      ⌊((200 : ℚ) - (cfgBase.margin_left + cfgBase.margin_right) * mmQ) /
        (cfgBase.spacing * mmQ)⌋ + 1) ∧
    (((Patterns.squaredVerticals 20 30 5 4).length : ℤ) =
      ⌈((20 : ℚ) - 2 * 4) / 5⌉) :=
  ⟨⟨by norm_num [cfgBase], by norm_num [cfgBase, mmQ], by norm_num [cfgBase, mmQ]⟩,
   (claim3_squared_grid_count.1 0 0 200 300 cfgBase (by norm_num [cfgBase])
     (by norm_num [cfgBase, mmQ]) (by norm_num [cfgBase, mmQ])).1,
   (claim3_squared_grid_count.2 20 30 5 4 (by norm_num) (by norm_num) (by norm_num)).1⟩

/-- The C8 scenario configuration: pattern dotted, spacing 5mm, all four
margins 10mm, line weight 0.3pt. -/
def cfgDotted : Generate.Config :=
  ⟨"a5", "portrait", "dotted", 5, 10, 10, 10, 10, 75, 3 / 10, 32, 1, "no", "no", "none"⟩

/-- C8 (confirmed): on the rectangle `{0, 0, 100mm, 150mm}` with spacing
5mm and 10mm margins, the Dotted generator emits exactly 26 rows of dots,
the first at the top margin (`y = 140mm`), each row holding exactly 16
dots starting at the left margin (`x = 10mm`, step 5mm); the radius
`0.3 * 0.6 = 9/50` pt is unscaled, as in the source. -/
theorem claim8_dotted_scenario :
    Generate.draw_dotted 0 0 (100 * mmQ) (150 * mmQ) cfgDotted =
      (List.range 26).flatMap (fun (i : ℕ) =>
        (List.range 16).map (fun (j : ℕ) =>
          DrawOp.circle ((10 + 5 * (j : ℚ)) * mmQ) ((140 - 5 * (i : ℚ)) * mmQ)
            (9 / 50) true)) := by
  have hs : (0 : ℚ) < 5 * mmQ := by norm_num [mmQ]
  rw [show Generate.draw_dotted 0 0 (100 * mmQ) (150 * mmQ) cfgDotted =
      loopDown
        (fun _ y => loopUpLT (fun _ x => [DrawOp.circle x y ((3 / 10) * (3 / 5)) true])
          (0 + 100 * mmQ - 10 * mmQ) (5 * mmQ)
          (upFuelLT (0 + 10 * mmQ) (0 + 100 * mmQ - 10 * mmQ) (5 * mmQ))
          0 (0 + 10 * mmQ))
        (0 + 10 * mmQ) (5 * mmQ)
        (downFuel (0 + 150 * mmQ - 10 * mmQ) (0 + 10 * mmQ) (5 * mmQ)) 0
        (0 + 150 * mmQ - 10 * mmQ) from rfl]
  have hr : (3 / 10 : ℚ) * (3 / 5) = 9 / 50 := by norm_num
  rw [hr]
  have hM : upFuelLT (0 + 10 * mmQ) (0 + 100 * mmQ - 10 * mmQ) (5 * mmQ) = 16 := by
    unfold upFuelLT
    rw [show ((0 : ℚ) + 100 * mmQ - 10 * mmQ - (0 + 10 * mmQ)) / (5 * mmQ) = 16 by
      rw [mmQ]; norm_num]
    norm_num
    rfl
  have hN : downFuel (0 + 150 * mmQ - 10 * mmQ) (0 + 10 * mmQ) (5 * mmQ) = 26 := by
    unfold downFuel
    rw [show ((0 : ℚ) + 150 * mmQ - 10 * mmQ - (0 + 10 * mmQ)) / (5 * mmQ) = 26 by
      rw [mmQ]; norm_num]
    norm_num
    rfl
  rw [hM]
  rw [loopDown_eq hs _ _ _ le_rfl, hN]
  congr 1
  funext i
  rw [loopUpLT_eq hs 16 0 (0 + 10 * mmQ) (le_of_eq hM)]
  rw [hM, flatMap_singleton_eq_map]
  apply List.map_congr_left
  intro j _
  have hx : 0 + 10 * mmQ + (j : ℚ) * (5 * mmQ) = (10 + 5 * (j : ℚ)) * mmQ := by ring
  have hy : 0 + 150 * mmQ - 10 * mmQ - (i : ℚ) * (5 * mmQ) = (140 - 5 * (i : ℚ)) * mmQ := by
    ring
  rw [hx, hy]

/-- `cfgBase` with page numbers enabled. -/
def cfgNumbered : Generate.Config :=
  ⟨"a5", "portrait", "blank", 5, 10, 10, 15, 10, 75, 3 / 10, 32, 1, "no", "yes", "none"⟩

/-- C7 (confirmed): for arity 1 with page numbers enabled and a positive
starting page, the imposed sheet carries exactly one page-number label,
at `x = margin_left` when the logical page number is even and
`x = sheet_width - margin_right` when it is odd, at height
`margin_bottom / 2` (inside the bottom margin). -/
theorem claim7_page_number_parity :
    ∀ (r3 sheet_width sheet_height : ℚ) (start_page : ℤ) (cfg : Generate.Config),
      cfg.page_numbers = "yes" → 0 < start_page →
      (Generate.create_imposed_page r3 sheet_width sheet_height 1 start_page cfg).filter
          (fun op => op.isText) =
        [DrawOp.text
          (if start_page % 2 = 0 then cfg.margin_left * mmQ
           else sheet_width - cfg.margin_right * mmQ)
          (cfg.margin_bottom * mmQ / 2) start_page] := by
  intro r3 sw sh p cfg hpn hp
  simp only [Generate.create_imposed_page]
  rw [if_pos trivial]
  rw [List.filter_append, List.filter_append]
  rw [Generate.draw_pattern_filter_text]
  rw [if_pos ⟨hpn, hp⟩]
  by_cases hph : cfg.punch_holes ≠ "none"
  · rw [if_pos hph, Generate.draw_punch_holes_filter_text]
    simp [Generate.draw_page_number, DrawOp.isText]
  · rw [if_neg hph]
    simp [Generate.draw_page_number, DrawOp.isText]

/-- C7, witness: page 4 (even) on a 500×700pt sheet. -/
theorem claim7_witness :
    (cfgNumbered.page_numbers = "yes" ∧ (0 : ℤ) < 4) ∧
    ((Generate.create_imposed_page (7 / 4) 500 700 1 4 cfgNumbered).filter
        (fun op => op.isText) =
      [DrawOp.text
        (if (4 : ℤ) % 2 = 0 then cfgNumbered.margin_left * mmQ
         else 500 - cfgNumbered.margin_right * mmQ)
        (cfgNumbered.margin_bottom * mmQ / 2) 4]) :=
  ⟨⟨rfl, by decide⟩,
   claim7_page_number_parity (7 / 4) 500 700 4 cfgNumbered rfl (by decide)⟩

/-- C10 (confirmed): for arity 2 with page numbers enabled, both labels'
x positions are computed from the half-sheet width (`half_width` is
passed to `draw_page_number` as the page width for BOTH logical pages):
`x = margin_left` for an even page number, `x = sheet_width/2 -
margin_right` for an odd one — so with margins at most half the sheet,
both labels land in `[0, sheet_width/2]`, the left half of the physical
sheet. -/
theorem claim10_arity2_page_numbers :
    ∀ (r3 sheet_width sheet_height : ℚ) (start_page : ℤ) (cfg : Generate.Config),
      cfg.page_numbers = "yes" → 0 < start_page →
      0 ≤ cfg.margin_left * mmQ → cfg.margin_left * mmQ ≤ sheet_width / 2 →
      0 ≤ cfg.margin_right * mmQ → cfg.margin_right * mmQ ≤ sheet_width / 2 →
      ∃ x1 x2 : ℚ,
        (Generate.create_imposed_page r3 sheet_width sheet_height 2 start_page cfg).filter
            (fun op => op.isText) =
          [DrawOp.text x1 (cfg.margin_bottom * mmQ / 2) start_page,
           DrawOp.text x2 (cfg.margin_bottom * mmQ / 2) (start_page + 1)] ∧
        x1 = (if start_page % 2 = 0 then cfg.margin_left * mmQ
              else sheet_width / 2 - cfg.margin_right * mmQ) ∧
        x2 = (if (start_page + 1) % 2 = 0 then cfg.margin_left * mmQ
              else sheet_width / 2 - cfg.margin_right * mmQ) ∧
        0 ≤ x1 ∧ x1 ≤ sheet_width / 2 ∧ 0 ≤ x2 ∧ x2 ≤ sheet_width / 2 := by
  intro r3 sw sh p cfg hpn hp hml0 hml hmr0 hmr
  refine ⟨if p % 2 = 0 then cfg.margin_left * mmQ else sw / 2 - cfg.margin_right * mmQ,
    if (p + 1) % 2 = 0 then cfg.margin_left * mmQ else sw / 2 - cfg.margin_right * mmQ,
    ?_, rfl, rfl, ?_, ?_, ?_, ?_⟩
  · have htt : ∀ (x y : ℚ) (n : ℤ), (DrawOp.text x y n).isText = true := fun _ _ _ => rfl
    have htl : ∀ (a b c d : ℚ), (DrawOp.line a b c d).isText = false := fun _ _ _ _ => rfl
    simp only [Generate.create_imposed_page]
    rw [if_pos trivial]
    simp [hpn, hp, List.filter_append, Generate.draw_pattern_filter_text,
      Generate.draw_page_number, htt, htl]
  · split_ifs
    · exact hml0
    · linarith
  · split_ifs
    · exact hml
    · linarith
  · split_ifs
    · exact hml0
    · linarith
  · split_ifs
    · exact hml
    · linarith

/-- C10, witness: start page 3 on a 500pt-wide sheet with `cfgNumbered`'s
margins (15mm left, 10mm right). -/
theorem claim10_witness :
    (cfgNumbered.page_numbers = "yes" ∧ (0 : ℤ) < 3 ∧
      cfgNumbered.margin_left * mmQ ≤ (500 : ℚ) / 2) ∧
    (∃ x1 x2 : ℚ,
      (Generate.create_imposed_page (7 / 4) 500 700 2 3 cfgNumbered).filter
          (fun op => op.isText) =
        [DrawOp.text x1 (cfgNumbered.margin_bottom * mmQ / 2) 3,
         DrawOp.text x2 (cfgNumbered.margin_bottom * mmQ / 2) (3 + 1)] ∧
      x1 = (if (3 : ℤ) % 2 = 0 then cfgNumbered.margin_left * mmQ
            else (500 : ℚ) / 2 - cfgNumbered.margin_right * mmQ) ∧
      x2 = (if ((3 : ℤ) + 1) % 2 = 0 then cfgNumbered.margin_left * mmQ
            else (500 : ℚ) / 2 - cfgNumbered.margin_right * mmQ) ∧
      0 ≤ x1 ∧ x1 ≤ (500 : ℚ) / 2 ∧ 0 ≤ x2 ∧ x2 ≤ (500 : ℚ) / 2) :=
  ⟨⟨rfl, by decide, by norm_num [cfgNumbered, mmQ]⟩,
   claim10_arity2_page_numbers (7 / 4) 500 700 3 cfgNumbered rfl (by decide)
     (by norm_num [cfgNumbered, mmQ]) (by norm_num [cfgNumbered, mmQ])
     (by norm_num [cfgNumbered, mmQ]) (by norm_num [cfgNumbered, mmQ])⟩

/-- C9 (confirmed): degenerate margins are not an error.  When the
horizontal margins meet or exceed the width, or the vertical ones the
height, the Dotted generator emits nothing at all; Lined (without header
line) emits nothing under vertical degeneracy; and the assembler is a
total function that always produces its full `ceil(total/pps)` sheets —
the only failure the assembler can hit is `pages_per_sheet = 0`
(ZeroDivisionError), never a margin condition.  All generators are total
functions in the embedding: no degenerate rectangle raises. -/
theorem claim9_degenerate_margins :
    (∀ (x_start y_start width height : ℚ) (cfg : Generate.Config),
        0 < cfg.spacing →
        (width ≤ (cfg.margin_left + cfg.margin_right) * mmQ ∨
          height ≤ (cfg.margin_top + cfg.margin_bottom) * mmQ) →
        Generate.draw_dotted x_start y_start width height cfg = []) ∧
    (∀ (x_start y_start width height : ℚ) (cfg : Generate.Config),
        0 < cfg.spacing → cfg.header_line ≠ "yes" →
        height ≤ (cfg.margin_top + cfg.margin_bottom) * mmQ →
        Generate.draw_lined x_start y_start width height cfg = []) ∧
    (∀ (r3 : ℚ) (cfg : Generate.Config), cfg.pages_per_sheet ≠ 0 →
        ∃ sheets, Generate.create_notebook_pdf r3 cfg = Except.ok sheets ∧
          sheets.length = (⌈(cfg.pages : ℚ) / (cfg.pages_per_sheet : ℚ)⌉).toNat) := by
  refine ⟨?_, ?_, ?_⟩
  · intro xs ys w h cfg hs hdeg
    have hsp : (0 : ℚ) < cfg.spacing * mmQ := mul_pos hs mmQ_pos
    rcases hdeg with hw | hh
    · have hw2 : cfg.margin_left * mmQ + cfg.margin_right * mmQ ≥ w := by
        have : (cfg.margin_left + cfg.margin_right) * mmQ =
            cfg.margin_left * mmQ + cfg.margin_right * mmQ := by ring
        linarith [this ▸ hw]
      have hinner : upFuelLT (xs + cfg.margin_left * mmQ)
          (xs + w - cfg.margin_right * mmQ) (cfg.spacing * mmQ) = 0 :=
        upFuelLT_eq_zero hsp (by intro hlt; linarith)
      simp only [Generate.draw_dotted]
      apply List.eq_nil_iff_forall_not_mem.mpr
      intro op hop
      refine loopDown_forall_all (fun _ => False) ?_ _ _ _ op hop
      intro k y op2 hop2
      rw [hinner] at hop2
      simp [loopUpLT] at hop2
    · have hh2 : cfg.margin_top * mmQ + cfg.margin_bottom * mmQ ≥ h := by
        have : (cfg.margin_top + cfg.margin_bottom) * mmQ =
            cfg.margin_top * mmQ + cfg.margin_bottom * mmQ := by ring
        linarith [this ▸ hh]
      have houter : downFuel (ys + h - cfg.margin_top * mmQ)
          (ys + cfg.margin_bottom * mmQ) (cfg.spacing * mmQ) = 0 :=
        downFuel_eq_zero hsp (by linarith)
      simp only [Generate.draw_dotted]
      rw [houter]
      rfl
  · intro xs ys w h cfg hs hhl hh
    have hsp : (0 : ℚ) < cfg.spacing * mmQ := mul_pos hs mmQ_pos
    have hh2 : cfg.margin_top * mmQ + cfg.margin_bottom * mmQ ≥ h := by
      have : (cfg.margin_top + cfg.margin_bottom) * mmQ =
          cfg.margin_top * mmQ + cfg.margin_bottom * mmQ := by ring
      linarith [this ▸ hh]
    simp only [Generate.draw_lined]
    rw [if_neg hhl, if_neg hhl]
    have hfuel : downFuel (ys + h - cfg.margin_top * mmQ - cfg.spacing * mmQ)
        (ys + cfg.margin_bottom * mmQ) (cfg.spacing * mmQ) = 0 :=
      downFuel_eq_zero hsp (by linarith)
    rw [hfuel]
    rfl
  · intro r3 cfg h0
    refine ⟨_, Generate.create_notebook_pdf_eq r3 cfg h0, ?_⟩
    rw [List.length_map, List.length_range]

/-- C9, witness: a 50pt-wide rectangle whose 10mm+10mm horizontal margins
(≈56.7pt) exceed its width yields an empty Dotted output, and the
assembler still produces all its sheets for the same configuration. -/
theorem claim9_witness :
    ((0 : ℚ) < cfgDotted.spacing ∧
      (50 : ℚ) ≤ (cfgDotted.margin_left + cfgDotted.margin_right) * mmQ) ∧
    Generate.draw_dotted 0 0 50 300 cfgDotted = [] ∧
    (∃ sheets, Generate.create_notebook_pdf (7 / 4) cfgDotted = Except.ok sheets ∧
      sheets.length = (⌈(cfgDotted.pages : ℚ) / (cfgDotted.pages_per_sheet : ℚ)⌉).toNat) :=
  ⟨⟨by norm_num [cfgDotted], by norm_num [cfgDotted, mmQ]⟩,
   claim9_degenerate_margins.1 0 0 50 300 cfgDotted (by norm_num [cfgDotted])
     (Or.inl (by norm_num [cfgDotted, mmQ])),
   claim9_degenerate_margins.2.2 (7 / 4) cfgDotted (by decide)⟩

namespace Generate

/-- Containment of `draw_lined` when no margin exceeds the rectangle's
corresponding dimension. -/
theorem draw_lined_inRect (x_start y_start width height : ℚ) (cfg : Config)
    (hs : 0 < cfg.spacing) (hml0 : 0 ≤ cfg.margin_left) (hmr0 : 0 ≤ cfg.margin_right)
    (hmt0 : 0 ≤ cfg.margin_top) (hmb0 : 0 ≤ cfg.margin_bottom)
    (hml : cfg.margin_left * mmQ ≤ width) (hmr : cfg.margin_right * mmQ ≤ width)
    (hmt : cfg.margin_top * mmQ ≤ height) :
    ∀ op ∈ draw_lined x_start y_start width height cfg,
      opInRect x_start y_start width height op := by
  intro op hop
  have hsp : (0 : ℚ) < cfg.spacing * mmQ := mul_pos hs mmQ_pos
  have hMl : (0 : ℚ) ≤ cfg.margin_left * mmQ := mul_nonneg hml0 mmQ_pos.le
  have hMr : (0 : ℚ) ≤ cfg.margin_right * mmQ := mul_nonneg hmr0 mmQ_pos.le
  have hMt : (0 : ℚ) ≤ cfg.margin_top * mmQ := mul_nonneg hmt0 mmQ_pos.le
  have hMb : (0 : ℚ) ≤ cfg.margin_bottom * mmQ := mul_nonneg hmb0 mmQ_pos.le
  simp only [draw_lined] at hop
  rcases List.mem_append.mp hop with hop | hop
  · by_cases hh : cfg.header_line = "yes"
    · rw [if_pos hh] at hop
      have heq := List.mem_singleton.mp hop
      subst heq
      simp only [opInRect]
      refine ⟨⟨?_, ?_⟩, ⟨?_, ?_⟩, ⟨?_, ?_⟩, ⟨?_, ?_⟩⟩ <;> linarith
    · rw [if_neg hh] at hop
      simp at hop
  · have hstart : (if cfg.header_line = "yes"
        then y_start + height - cfg.margin_top * mmQ - cfg.spacing * mmQ * 2
        else y_start + height - cfg.margin_top * mmQ - cfg.spacing * mmQ) ≤
        y_start + height := by
      split_ifs <;> linarith
    refine loopDown_forall (opInRect x_start y_start width height) hsp.le ?_ _ _ _
      hstart op hop
    intro k y hy1 hy2 op2 hop2
    have heq := List.mem_singleton.mp hop2
    subst heq
    simp only [opInRect]
    refine ⟨⟨?_, ?_⟩, ⟨?_, ?_⟩, ⟨?_, ?_⟩, ⟨?_, ?_⟩⟩ <;> linarith

/-- Containment of `draw_dotted`: dot centres always stay inside the
rectangle for nonnegative margins. -/
theorem draw_dotted_inRect (x_start y_start width height : ℚ) (cfg : Config)
    (hs : 0 < cfg.spacing) (hml0 : 0 ≤ cfg.margin_left) (hmr0 : 0 ≤ cfg.margin_right)
    (hmt0 : 0 ≤ cfg.margin_top) (hmb0 : 0 ≤ cfg.margin_bottom) :
    ∀ op ∈ draw_dotted x_start y_start width height cfg,
      opInRect x_start y_start width height op := by
  intro op hop
  have hsp : (0 : ℚ) < cfg.spacing * mmQ := mul_pos hs mmQ_pos
  have hMl : (0 : ℚ) ≤ cfg.margin_left * mmQ := mul_nonneg hml0 mmQ_pos.le
  have hMr : (0 : ℚ) ≤ cfg.margin_right * mmQ := mul_nonneg hmr0 mmQ_pos.le
  have hMt : (0 : ℚ) ≤ cfg.margin_top * mmQ := mul_nonneg hmt0 mmQ_pos.le
  have hMb : (0 : ℚ) ≤ cfg.margin_bottom * mmQ := mul_nonneg hmb0 mmQ_pos.le
  simp only [draw_dotted] at hop
  have hy0 : y_start + height - cfg.margin_top * mmQ ≤ y_start + height := by linarith
  refine loopDown_forall (opInRect x_start y_start width height) hsp.le ?_ _ _ _
    hy0 op hop
  intro k y hy1 hy2 op2 hop2
  refine loopUpLT_forall (opInRect x_start y_start width height) hsp.le ?_ _ _ _
    le_rfl op2 hop2
  intro k2 x hx1 hx2 op3 hop3
  have heq := List.mem_singleton.mp hop3
  subst heq
  simp only [opInRect]
  refine ⟨⟨?_, ?_⟩, ⟨?_, ?_⟩⟩ <;> linarith

/-- Containment of `draw_squared` when no margin exceeds the rectangle's
corresponding dimension. -/
theorem draw_squared_inRect (x_start y_start width height : ℚ) (cfg : Config)
    (hs : 0 < cfg.spacing) (hml0 : 0 ≤ cfg.margin_left) (hmr0 : 0 ≤ cfg.margin_right)
    (hmt0 : 0 ≤ cfg.margin_top) (hmb0 : 0 ≤ cfg.margin_bottom)
    (hml : cfg.margin_left * mmQ ≤ width) (hmr : cfg.margin_right * mmQ ≤ width)
    (hmt : cfg.margin_top * mmQ ≤ height) (hmb : cfg.margin_bottom * mmQ ≤ height) :
    ∀ op ∈ draw_squared x_start y_start width height cfg,
      opInRect x_start y_start width height op := by
  intro op hop
  have hsp : (0 : ℚ) < cfg.spacing * mmQ := mul_pos hs mmQ_pos
  have hMl : (0 : ℚ) ≤ cfg.margin_left * mmQ := mul_nonneg hml0 mmQ_pos.le
  have hMr : (0 : ℚ) ≤ cfg.margin_right * mmQ := mul_nonneg hmr0 mmQ_pos.le
  have hMt : (0 : ℚ) ≤ cfg.margin_top * mmQ := mul_nonneg hmt0 mmQ_pos.le
  have hMb : (0 : ℚ) ≤ cfg.margin_bottom * mmQ := mul_nonneg hmb0 mmQ_pos.le
  simp only [draw_squared, squaredVerticals, squaredHorizontals] at hop
  rcases List.mem_append.mp hop with hop | hop
  · refine loopUpLE_forall (opInRect x_start y_start width height) hsp.le ?_ _ _ _
      le_rfl op hop
    intro k x hx1 hx2 op2 hop2
    have heq := List.mem_singleton.mp hop2
    subst heq
    simp only [opInRect]
    refine ⟨⟨?_, ?_⟩, ⟨?_, ?_⟩, ⟨?_, ?_⟩, ⟨?_, ?_⟩⟩ <;> linarith
  · refine loopUpLE_forall (opInRect x_start y_start width height) hsp.le ?_ _ _ _
      le_rfl op hop
    intro k y hy1 hy2 op2 hop2
    have heq := List.mem_singleton.mp hop2
    subst heq
    simp only [opInRect]
    refine ⟨⟨?_, ?_⟩, ⟨?_, ?_⟩, ⟨?_, ?_⟩, ⟨?_, ?_⟩⟩ <;> linarith

/-- The first isometric diagonal family stays inside the rectangle: the
`x` anchor ranges over the source loop's interval, the clipping
corrections and the final guard bound every endpoint. -/
theorem isoDiag1Body_inRect (xs ys w h m t x : ℚ) (ht : 0 < t) (hm0 : 0 ≤ m)
    (hmw : m ≤ w) (hmh : m ≤ h) (hx1 : xs + m ≤ x)
    (hx2 : x ≤ xs + w - m + (ys + h - m - (ys + m)) / t) :
    ∀ op ∈ isoDiag1Body (xs + m) (xs + w - m) (ys + h - m) (ys + m) t x,
      opInRect xs ys w h op := by
  intro op hop
  have hd1 : (x - (xs + w - m)) * t ≤ ys + h - m - (ys + m) :=
    (le_div_iff₀ ht).mp (by linarith)
  simp only [isoDiag1Body] at hop
  split_ifs at hop with h2 h1 hg hg hg hg
  all_goals simp_all
  all_goals subst hop
  all_goals simp only [opInRect]
  all_goals (repeat' apply And.intro) <;>
    first
    | linarith [hd1, mul_nonneg (show (0 : ℚ) ≤ x - (xs + m) by linarith) ht.le]
    | linarith [hd1, mul_nonneg (show (0 : ℚ) ≤ x - (xs + w - m) by linarith) ht.le]

/-- The second isometric diagonal family stays inside the rectangle. -/
theorem isoDiag2Body_inRect (xs ys w h m t x : ℚ) (ht : 0 < t) (hm0 : 0 ≤ m)
    (hmw : m ≤ w) (hmh : m ≤ h)
    (hx1 : xs + m - (ys + h - m - (ys + m)) / t ≤ x) (hx2 : x ≤ xs + w - m) :
    ∀ op ∈ isoDiag2Body (xs + m) (xs + w - m) (ys + h - m) (ys + m) t x,
      opInRect xs ys w h op := by
  intro op hop
  have hd2 : (xs + m - x) * t ≤ ys + h - m - (ys + m) :=
    (le_div_iff₀ ht).mp (by linarith)
  simp only [isoDiag2Body] at hop
  split_ifs at hop with h2 h1 hg hg hg hg
  all_goals simp_all
  all_goals subst hop
  all_goals simp only [opInRect]
  all_goals (repeat' apply And.intro) <;>
    first
    | linarith [hd2, mul_nonneg (show (0 : ℚ) ≤ xs + w - m - x by linarith) ht.le]
    | linarith [hd2, mul_nonneg (show (0 : ℚ) ≤ xs + m - x by linarith) ht.le]

/-- Containment of `draw_isometric` when the (single, left) margin does
not exceed either rectangle dimension. -/
theorem draw_isometric_inRect (r3 x_start y_start width height : ℚ) (cfg : Config)
    (hs : 0 < cfg.spacing) (hr3 : 0 < r3) (hm0 : 0 ≤ cfg.margin_left)
    (hmw : cfg.margin_left * mmQ ≤ width) (hmh : cfg.margin_left * mmQ ≤ height) :
    ∀ op ∈ draw_isometric r3 x_start y_start width height cfg,
      opInRect x_start y_start width height op := by
  intro op hop
  have hsp : (0 : ℚ) < cfg.spacing * mmQ := mul_pos hs mmQ_pos
  have hM0 : (0 : ℚ) ≤ cfg.margin_left * mmQ := mul_nonneg hm0 mmQ_pos.le
  have ht : (0 : ℚ) < tan30 r3 := div_pos hr3 (by norm_num)
  simp only [draw_isometric, List.append_assoc] at hop
  rcases List.mem_append.mp hop with hop | hop
  · refine loopUpLE_forall (opInRect x_start y_start width height)
      (mul_nonneg (mul_nonneg hsp.le ht.le) (by norm_num)) ?_ _ _ _ le_rfl op hop
    intro k y hy1 hy2 op2 hop2
    have heq := List.mem_singleton.mp hop2
    subst heq
    simp only [opInRect]
    refine ⟨⟨?_, ?_⟩, ⟨?_, ?_⟩, ⟨?_, ?_⟩, ⟨?_, ?_⟩⟩ <;> linarith
  rcases List.mem_append.mp hop with hop | hop
  · refine loopUpLE_forall (opInRect x_start y_start width height) hsp.le ?_ _ _ _
      le_rfl op hop
    intro k x hx1 hx2 op2 hop2
    exact isoDiag1Body_inRect x_start y_start width height (cfg.margin_left * mmQ)
      (tan30 r3) x ht hM0 hmw hmh hx1 hx2 op2 hop2
  · refine loopUpLE_forall (opInRect x_start y_start width height) hsp.le ?_ _ _ _
      le_rfl op hop
    intro k x hx1 hx2 op2 hop2
    exact isoDiag2Body_inRect x_start y_start width height (cfg.margin_left * mmQ)
      (tan30 r3) x ht hM0 hmw hmh hx1 hx2 op2 hop2

/-- Containment of `draw_hexagonal`: every hexagon vertex stays inside
the rectangle for a nonnegative (left) margin, for any `0 < r3 ≤ 2`
(satisfied by `sqrt 3`). -/
theorem draw_hexagonal_inRect (r3 x_start y_start width height : ℚ) (cfg : Config)
    (hs : 0 < cfg.spacing) (hr3 : 0 < r3) (hr32 : r3 ≤ 2)
    (hm0 : 0 ≤ cfg.margin_left) :
    ∀ op ∈ draw_hexagonal r3 x_start y_start width height cfg,
      opInRect x_start y_start width height op := by
  intro op hop
  have hsize : (0 : ℚ) < cfg.spacing * mmQ := mul_pos hs mmQ_pos
  have hM0 : (0 : ℚ) ≤ cfg.margin_left * mmQ := mul_nonneg hm0 mmQ_pos.le
  have hsr : cfg.spacing * mmQ * r3 ≤ cfg.spacing * mmQ * 2 :=
    mul_le_mul_of_nonneg_left hr32 hsize.le
  have hsr0 : (0 : ℚ) ≤ cfg.spacing * mmQ * r3 := mul_nonneg hsize.le hr3.le
  simp only [draw_hexagonal] at hop
  refine loopDown_forall (opInRect x_start y_start width height)
    (div_nonneg hsr0 (by norm_num)) ?_ _ _ _ le_rfl op hop
  intro row y hy1 hy2 op2 hop2
  have hoff : (0 : ℚ) ≤ (if row % 2 = 1 then cfg.spacing * mmQ * 2 * (3 / 4) else 0) := by
    split_ifs
    · positivity
    · exact le_refl 0
  refine loopUpLT_forall (opInRect x_start y_start width height)
    (by positivity) ?_ _ _ _
    (show x_start + cfg.margin_left * mmQ + cfg.spacing * mmQ ≤
        x_start + cfg.margin_left * mmQ + cfg.spacing * mmQ +
          (if row % 2 = 1 then cfg.spacing * mmQ * 2 * (3 / 4) else 0) from by linarith)
    op2 hop2
  intro k x hx1 hx2 op3 hop3
  simp only [draw_hexagon] at hop3
  have heq := List.mem_singleton.mp hop3
  subst heq
  simp only [opInRect]
  intro p hp
  fin_cases hp <;>
    (dsimp only) <;>
    (refine ⟨⟨?_, ?_⟩, ⟨?_, ?_⟩⟩ <;> linarith [hsr, hsr0, hsize.le])

end Generate

/-- A configuration whose left margin (20mm ≈ 56.7pt) exceeds the width
of a 20pt-wide rectangle, with a large spacing to keep output small. -/
def cfgBad : Generate.Config :=
  ⟨"a5", "portrait", "squared", 100, 0, 0, 20, 0, 75, 3 / 10, 32, 1, "no", "no", "none"⟩

/-- C2, counterexample: containment is NOT independent of the margin
values.  On the rectangle `{0, 0, 20, 1}` with a 20mm left margin,
`draw_squared` emits a horizontal line whose left endpoint
`x = 20mm ≈ 56.7pt` overshoots `x + width = 20`. -/
theorem claim2_counterexample :
    ¬ (∀ op ∈ Generate.draw_squared 0 0 20 1 cfgBad, opInRect 0 0 20 1 op) := by
  intro hall
  have hfuel : upFuelLE (0 + 0 * mmQ) (0 + 1 - 0 * mmQ) (100 * mmQ) = 1 := by
    unfold upFuelLE
    rw [show ((0 : ℚ) + 1 - 0 * mmQ - (0 + 0 * mmQ)) / (100 * mmQ) = 127 / 36000 by
      rw [mmQ]; norm_num]
    rw [show ⌊(127 / 36000 : ℚ)⌋ = 0 by
      rw [Int.floor_eq_iff]
      norm_num]
    rfl
  have hmem : DrawOp.line (0 + 20 * mmQ) (0 + 0 * mmQ) (0 + 20 - 0 * mmQ) (0 + 0 * mmQ) ∈
      Generate.draw_squared 0 0 20 1 cfgBad := by
    simp only [Generate.draw_squared, Generate.squaredVerticals,
      Generate.squaredHorizontals, cfgBad]
    refine List.mem_append.mpr (Or.inr ?_)
    rw [hfuel]
    simp only [loopUpLE]
    rw [if_pos (show (0 : ℚ) + 0 * mmQ ≤ 0 + 1 - 0 * mmQ by norm_num)]
    simp
  have hbad := hall _ hmem
  simp only [opInRect] at hbad
  have hx := hbad.1.2
  rw [mmQ] at hx
  norm_num at hx

/-- C2 (amended): every coordinate of every Line/Circle/Polygon operation
emitted by the Lined, Dotted, Squared, Isometric and Hexagonal generators
lies within `[x, x+width] × [y, y+height]` of the input rectangle,
PROVIDED the margins are nonnegative and no margin exceeds the
corresponding rectangle dimension (for Isometric and Hexagonal, which
apply the left margin on all four sides, the left margin must not exceed
either dimension).  It is not independent of the margin values: a margin
larger than the rectangle makes Lined and Squared overshoot
(`claim2_counterexample`).  `r3` stands for `sqrt 3 ∈ (0, 2]`. -/
theorem claim2_boundary_containment :
    ∀ (r3 x_start y_start width height : ℚ) (cfg : Generate.Config),
      0 < cfg.spacing → 0 < r3 → r3 ≤ 2 →
      0 ≤ cfg.margin_left → 0 ≤ cfg.margin_right →
      0 ≤ cfg.margin_top → 0 ≤ cfg.margin_bottom →
      cfg.margin_left * mmQ ≤ width → cfg.margin_right * mmQ ≤ width →
      cfg.margin_top * mmQ ≤ height → cfg.margin_bottom * mmQ ≤ height →
      cfg.margin_left * mmQ ≤ height →
      (∀ op ∈ Generate.draw_lined x_start y_start width height cfg,
        opInRect x_start y_start width height op) ∧
      (∀ op ∈ Generate.draw_dotted x_start y_start width height cfg,
        opInRect x_start y_start width height op) ∧
      (∀ op ∈ Generate.draw_squared x_start y_start width height cfg,
        opInRect x_start y_start width height op) ∧
      (∀ op ∈ Generate.draw_isometric r3 x_start y_start width height cfg,
        opInRect x_start y_start width height op) ∧
      (∀ op ∈ Generate.draw_hexagonal r3 x_start y_start width height cfg,
        opInRect x_start y_start width height op) := by
  intro r3 xs ys w h cfg hs hr3 hr32 hml0 hmr0 hmt0 hmb0 hml hmr hmt hmb hmlh
  exact ⟨Generate.draw_lined_inRect xs ys w h cfg hs hml0 hmr0 hmt0 hmb0 hml hmr hmt,
    Generate.draw_dotted_inRect xs ys w h cfg hs hml0 hmr0 hmt0 hmb0,
    Generate.draw_squared_inRect xs ys w h cfg hs hml0 hmr0 hmt0 hmb0 hml hmr hmt hmb,
    Generate.draw_isometric_inRect r3 xs ys w h cfg hs hr3 hml0 hml hmlh,
    Generate.draw_hexagonal_inRect r3 xs ys w h cfg hs hr3 hr32 hml0⟩

/-- C2, witness: the amended containment at a 200×300pt rectangle with
`cfgBase`'s margins (10/10/15/10mm) and `r3 = 7/4`. -/
theorem claim2_witness :
    ((0 : ℚ) < cfgBase.spacing ∧ cfgBase.margin_left * mmQ ≤ (200 : ℚ) ∧
      cfgBase.margin_left * mmQ ≤ (300 : ℚ)) ∧
    ((∀ op ∈ Generate.draw_lined 0 0 200 300 cfgBase, opInRect 0 0 200 300 op) ∧
     (∀ op ∈ Generate.draw_dotted 0 0 200 300 cfgBase, opInRect 0 0 200 300 op) ∧
     (∀ op ∈ Generate.draw_squared 0 0 200 300 cfgBase, opInRect 0 0 200 300 op) ∧
     (∀ op ∈ Generate.draw_isometric (7 / 4) 0 0 200 300 cfgBase,
        opInRect 0 0 200 300 op) ∧
     (∀ op ∈ Generate.draw_hexagonal (7 / 4) 0 0 200 300 cfgBase,
        opInRect 0 0 200 300 op)) :=
  ⟨⟨by norm_num [cfgBase], by norm_num [cfgBase, mmQ], by norm_num [cfgBase, mmQ]⟩,
   claim2_boundary_containment (7 / 4) 0 0 200 300 cfgBase (by norm_num [cfgBase])
     (by norm_num) (by norm_num) (by norm_num [cfgBase]) (by norm_num [cfgBase])
     (by norm_num [cfgBase]) (by norm_num [cfgBase]) (by norm_num [cfgBase, mmQ])
     (by norm_num [cfgBase, mmQ]) (by norm_num [cfgBase, mmQ])
     (by norm_num [cfgBase, mmQ]) (by norm_num [cfgBase, mmQ])⟩
